import Mathlib

/-!
Verification development for the trendScraper repository.

The Python source under scrutiny is shallowly embedded below.  Pure helper
functions become Lean functions; the SQLAlchemy-backed database becomes an
explicit `DbState` record threaded through the operations; HTML parsing
(BeautifulSoup) and the network are external libraries and are modelled as
oracles carried by a `Soup` record (the results of `select_one` / `select` /
`get_text` / `re.findall` calls); Python `float` prices are modelled as exact
rationals; `datetime` timestamps are modelled as naturals.  Fallible Python
code (raising exceptions) is modelled with `Except`/`Option` or with the
boolean results the source itself returns from its `try`/`except` blocks.
-/

/-! ## Generic list machinery: an insertion sort used to model Python's
`list.sort` and the SQL `ORDER BY` clauses, with its ordering and
membership lemmas. -/

def insertLe (le : α → α → Bool) (x : α) : List α → List α
  | [] => [x]
  | y :: ys => if le x y then x :: y :: ys else y :: insertLe le x ys

def sortLe (le : α → α → Bool) : List α → List α
  | [] => []
  | x :: xs => insertLe le x (sortLe le xs)

/-! ## Embedding of `src/base_scraper.py` -/

/-- Python whitespace as recognised by `str.split()` / `str.strip()`
(ASCII fragment). -/
def pySpace (c : Char) : Bool :=
  c = ' ' || c = '\t' || c = '\n' || c = '\r' || c = '\x0b' || c = '\x0c'

/-- Helper for `splitWs`: accumulates the current word (reversed). -/
def splitWsAux : List Char → List Char → List (List Char)
  | [], acc => if acc.isEmpty then [] else [acc.reverse]
  | c :: cs, acc =>
    if pySpace c then
      if acc.isEmpty then splitWsAux cs [] else acc.reverse :: splitWsAux cs []
    else splitWsAux cs (c :: acc)

/-- Python `str.split()` with no argument: split on runs of whitespace,
discarding empty fragments. -/
def splitWs (l : List Char) : List (List Char) := splitWsAux l []

/-- Python `' '.join(words)`. -/
def joinSp : List (List Char) → List Char
  | [] => []
  | [w] => w
  | w :: ws => w ++ ' ' :: joinSp ws

/-- `BaseScraper.clean_text`: `if not text: return ""` then
`' '.join(str(text).split())`. -/
def cleanText (s : String) : String :=
  if s.data.isEmpty then "" else ⟨joinSp (splitWs s.data)⟩

/-- The character filter of `BaseScraper.clean_price`:
`re.sub(r'[^\d.]', '', str(price_text))` keeps only digits and dots. -/
def cleanPriceChars (s : List Char) : List Char :=
  s.filter (fun c => c.isDigit || c == '.')

/-- Numeric value of a decimal digit character. -/
def charVal (c : Char) : ℕ := c.toNat - 48

/-- Big-endian value of a digit string (how `float` reads the integer or
fractional digit block). -/
def digitsVal (l : List Char) : ℕ :=
  l.foldl (fun a c => 10 * a + charVal c) 0

/-- Split a dot-separated string at its first `'.'`:
returns the part before and, when a dot exists, the part after. -/
def splitDot : List Char → List Char × Option (List Char)
  | [] => ([], none)
  | c :: cs =>
    if c = '.' then ([], some cs)
    else
      let p := splitDot cs
      (c :: p.1, p.2)

/-- Python `float()` restricted to strings of digits and dots (the only
strings `clean_price` feeds it): succeeds iff there is at least one digit
and at most one dot. -/
def pyFloatOfCleaned (l : List Char) : Option ℚ :=
  if l.any Char.isDigit ∧ l.count '.' ≤ 1 then
    let p := splitDot l
    let frac := p.2.getD []
    some ((digitsVal p.1 : ℚ) + (digitsVal frac : ℚ) / 10 ^ frac.length)
  else none

/-- `BaseScraper.clean_price`: strip everything except digits and the
decimal point, then `float(...)`, returning `0.0` when the parse fails. -/
def cleanPrice (s : String) : ℚ :=
  match pyFloatOfCleaned (cleanPriceChars s.data) with
  | some q => q
  | none => 0

/-- Leading-digit-run search used by `extract_sku_from_url`
(`re.search(r'_p(\d+)', url)`): find the first `_p` followed by at least
one digit and capture the maximal digit run. -/
def findPSku : List Char → Option (List Char)
  | [] => none
  | '_' :: rest =>
    match rest with
    | 'p' :: c :: rest2 =>
      if c.isDigit then some (c :: rest2.takeWhile Char.isDigit)
      else findPSku rest
    | _ => findPSku rest
  | _ :: rest => findPSku rest

/-- `BaseScraper.extract_sku_from_url`. -/
def extractSkuFromUrl (url : String) : Option String :=
  (findPSku url.data).map (fun l => ⟨l⟩)

/-- `BaseScraper._respect_rate_limit`, under an idealised clock: the wall
clock is exact and monotone, `time.sleep(t)` suspends for exactly `t`
seconds, and `time.time()` after the sleep reads the wake-up instant.
Arguments: the configured `scrape_delay`, the stored `last_request_time`,
the clock value at entry, and the value drawn by `random.uniform(0.5, 1.5)`.
Returns the instant the call returns (the turn is granted) paired with the
new `last_request_time`. -/
def respectRateLimit (delay lastRequestTime currentTime jitter : ℚ) : ℚ × ℚ :=
  let timeSinceLast := currentTime - lastRequestTime
  if timeSinceLast < delay then
    let sleepTime := delay - timeSinceLast + jitter
    (currentTime + sleepTime, currentTime + sleepTime)
  else
    (currentTime, currentTime)

/-! ## Rendering a cleaned price back to text.

`clean_price` is fed strings; feeding it its own (float) result goes through
Python's `str()`.  Every value `clean_price` returns is a non-negative
rational whose denominator divides a power of ten.  On such a value CPython
renders a plain decimal numeral `intpart.fracpart` (fractional part
zero-padded, trailing zeros dropped, a lone `0` kept) when the value is zero
or lies in `[1e-4, 1e16)`; outside that range it switches to scientific
notation — leading digit, a `.` and the remaining significant digits only
when they are nonzero, then `e`, the exponent's sign and the exponent
zero-padded to at least two digits (`str(1e-05)` is `'1e-05'`, `str(1e16)`
is `'1e+16'`).  `floatStr` below models exactly that; on values outside
this shape it returns a dummy. -/

/-- The decimal digit characters. -/
def digChar : ℕ → Char
  | 0 => '0' | 1 => '1' | 2 => '2' | 3 => '3' | 4 => '4'
  | 5 => '5' | 6 => '6' | 7 => '7' | 8 => '8' | _ => '9'

/-- Fuel-driven base-10 numeral (most significant digit first);
`fuel ≥ n` renders `n` completely. -/
def natDigits : ℕ → ℕ → List Char
  | 0, _ => []
  | fuel + 1, n =>
    if n = 0 then [] else natDigits fuel (n / 10) ++ [digChar (n % 10)]

/-- Base-10 numeral of a natural, `"0"` for zero. -/
def natStr (n : ℕ) : List Char :=
  if n = 0 then ['0'] else natDigits n n

/-- Exactly `e` base-10 digits of `n % 10 ^ e`, zero-padded on the left. -/
def natDigitsPad : ℕ → ℕ → List Char
  | 0, _ => []
  | e + 1, n => natDigitsPad e (n / 10) ++ [digChar (n % 10)]

/-- Drop the trailing `'0'` characters of a digit string. -/
def stripTrailingZeros (l : List Char) : List Char :=
  (l.reverse.dropWhile (fun c => c = '0')).reverse

/-- Fuel-driven floor logarithm (`natLog b n` with `1 < b` is the largest
`k` with `b ^ k ≤ n`, and `0` when `n = 0`): the decimal exponent of the
scientific notation. -/
def natLogAux (b : ℕ) : ℕ → ℕ → ℕ
  | 0, _ => 0
  | fuel + 1, n => if n < b then 0 else natLogAux b fuel (n / b) + 1

/-- Floor logarithm; fuel `n` always suffices. -/
def natLog (b n : ℕ) : ℕ := natLogAux b n n

/-- Python `str()` on the floats `clean_price` may return (non-negative,
denominator dividing a power of ten): a plain decimal numeral for zero and
for values in `[1e-4, 1e16)`, scientific notation otherwise.  The exponent
`q.den` always suffices for such values, and the rendering does not depend
on which sufficient exponent is chosen. -/
def floatStr (q : ℚ) : String :=
  let e := q.den
  if (q * 10 ^ e).den = 1 ∧ 0 ≤ q then
    let n := (q * 10 ^ e).num.toNat
    if q = 0 ∨ ((1 : ℚ) / 10 ^ 4 ≤ q ∧ q < 10 ^ 16) then
      let fracRaw := stripTrailingZeros (natDigitsPad e (n % 10 ^ e))
      ⟨natStr (n / 10 ^ e) ++ '.' :: (if fracRaw.isEmpty then ['0'] else fracRaw)⟩
    else
      let d := natLog 10 n
      let mantFrac := stripTrailingZeros (natDigitsPad d (n % 10 ^ d))
      let mant := natStr (n / 10 ^ d)
        ++ (if mantFrac.isEmpty then [] else '.' :: mantFrac)
      let eAbs := if q < 1 then e - d else d - e
      let eDigits := if eAbs < 10 then '0' :: natStr eAbs else natStr eAbs
      ⟨mant ++ 'e' :: (if q < 1 then '-' else '+') :: eDigits⟩
  else "0"

/-! ## Embedding of `src/bunnings_scraper.py`

BeautifulSoup and the `re` module are external libraries: a parsed page is
modelled as a `Soup` oracle carrying the results of the library calls the
scraper makes (`select_one`, `select`, `get_text`, and the one
`re.findall` over the page text).  The extraction logic itself — selector
orderings, emptiness tests, cleaning, defaults — is the repository's code
and is embedded faithfully.  The `location`, `scraped_at` and
`additional_info` fields of the scraper's `Product` dataclass are not
modelled: no claim concerns them. -/

/-- An HTML element as the scraper sees it: its `content` attribute
(`element.get('content')`) and its visible text (`element.text`). -/
structure Elem where
  contentAttr : Option String
  text : String
deriving DecidableEq

/-- A parsed page: the oracle for BeautifulSoup/`re` library calls. -/
structure Soup where
  selectOne : String → Option Elem
  selectAll : String → List Elem
  pageText : String
  findallPrice : List String

/-- Python truthiness of a string: non-empty. -/
def pyTruthy (s : String) : Bool := !s.data.isEmpty

/-- Python `str.lower()` (character-wise). -/
def pyLower (s : String) : String := ⟨s.data.map Char.toLower⟩

/-- Python `str.strip()`. -/
def pyStrip (s : String) : String :=
  ⟨((s.data.dropWhile pySpace).reverse.dropWhile pySpace).reverse⟩

/-- Truthiness of `text.strip()`. -/
def strippedNonempty (s : String) : Bool := !(pyStrip s).data.isEmpty

/-- Does `pat` occur at the start of the second list? -/
def listStarts : List Char → List Char → Bool
  | [], _ => true
  | _ :: _, [] => false
  | a :: as, b :: bs => a == b && listStarts as bs

/-- Does `pat` occur anywhere in the list (Python `in` on strings)? -/
def listContains (pat : List Char) : List Char → Bool
  | [] => pat.isEmpty
  | c :: t => listStarts pat (c :: t) || listContains pat t

/-- The ordered name selectors of `_extract_product_name`. -/
def nameSelectors : List String :=
  ["h1[class*=\"product\"]", "h1.product-title", "h1",
   "[data-locator=\"product-title\"]", "h1[itemprop=\"name\"]"]

/-- The selector loop of `_extract_product_name`: first element whose text
is non-blank after stripping wins, cleaned. -/
def extractNameFrom (soup : Soup) : List String → Option String
  | [] => none
  | sel :: rest =>
    match soup.selectOne sel with
    | some el =>
      if strippedNonempty el.text then some (cleanText el.text)
      else extractNameFrom soup rest
    | none => extractNameFrom soup rest

/-- `BunningsScraper._extract_product_name`. -/
def extractProductName (soup : Soup) : Option String :=
  extractNameFrom soup nameSelectors

/-- The ordered price selectors of `_extract_price`. -/
def priceSelectors : List String :=
  ["[data-locator=\"product-price\"]", ".price-format__main-price",
   "[class*=\"price\"]", "[itemprop=\"price\"]", "span.price"]

/-- `element.get('content') or element.text`. -/
def priceTextOf (el : Elem) : String :=
  match el.contentAttr with
  | some c => if pyTruthy c then c else el.text
  | none => el.text

/-- The selector loop of `_extract_price`: first selector whose text cleans
to a positive price wins. -/
def extractPriceFrom (soup : Soup) : List String → Option ℚ
  | [] => none
  | sel :: rest =>
    match soup.selectOne sel with
    | some el =>
      let priceText := priceTextOf el
      if pyTruthy priceText then
        let price := cleanPrice priceText
        if 0 < price then some price else extractPriceFrom soup rest
      else extractPriceFrom soup rest
    | none => extractPriceFrom soup rest

/-- The regex-scan fallback of `_extract_price`: first match whose cleaned
value lies in `[0.01, 100000]`. -/
def scanPriceMatches : List String → ℚ
  | [] => 0
  | m :: ms =>
    let price := cleanPrice m
    if 1 / 100 ≤ price ∧ price ≤ 100000 then price else scanPriceMatches ms

/-- `BunningsScraper._extract_price`. -/
def extractPrice (soup : Soup) : ℚ :=
  match extractPriceFrom soup priceSelectors with
  | some p => p
  | none => scanPriceMatches soup.findallPrice

/-- The ordered SKU selectors of `_extract_sku_from_page`. -/
def skuSelectors : List String :=
  ["[data-locator=\"product-sku\"]", ".product-sku", "[itemprop=\"sku\"]"]

/-- `re.search(r'\d+', text)`: the first maximal digit run. -/
def firstDigitRun : List Char → Option (List Char)
  | [] => none
  | c :: cs =>
    if c.isDigit then some (c :: cs.takeWhile Char.isDigit)
    else firstDigitRun cs

/-- The selector loop of `_extract_sku_from_page`. -/
def extractSkuFromPageFrom (soup : Soup) : List String → Option String
  | [] => none
  | sel :: rest =>
    match soup.selectOne sel with
    | some el =>
      match firstDigitRun (pyStrip el.text).data with
      | some run => some ⟨run⟩
      | none => extractSkuFromPageFrom soup rest
    | none => extractSkuFromPageFrom soup rest

/-- `BunningsScraper._extract_sku_from_page`. -/
def extractSkuFromPage (soup : Soup) : Option String :=
  extractSkuFromPageFrom soup skuSelectors

/-- The out-of-stock phrases of `_extract_stock_status`. -/
def outOfStockTexts : List String :=
  ["out of stock", "not available", "currently unavailable", "sold out"]

/-- The in-stock selectors of `_extract_stock_status`. -/
def inStockSelectors : List String :=
  ["[data-locator=\"in-stock\"]", ".in-stock", "[class*=\"available\"]"]

/-- `BunningsScraper._extract_stock_status`: explicit out-of-stock phrases
in the lowered page text force `false`; else an in-stock marker element
forces `true`; default `true`. -/
def extractStockStatus (soup : Soup) : Bool :=
  let pageTextLower := pyLower soup.pageText
  if outOfStockTexts.any (fun t => listContains t.data pageTextLower.data) then false
  else if inStockSelectors.any (fun sel => (soup.selectOne sel).isSome) then true
  else true

/-- `BunningsScraper._extract_category`: when more than one breadcrumb
anchor is present, the cleaned text of the second-to-last one; else
`None`. -/
def extractCategory (soup : Soup) : Option String :=
  let breadcrumbs := soup.selectAll "[class*=\"breadcrumb\"] a"
  if ¬breadcrumbs.isEmpty ∧ breadcrumbs.length > 1 then
    match breadcrumbs.reverse with
    | _ :: e :: _ => some (cleanText e.text)
    | _ => none
  else none

/-- The unit selectors of `_extract_unit`. -/
def unitSelectors : List String :=
  [".price-format__unit", "[data-locator=\"price-unit\"]", "span.unit"]

/-- The selector loop of `_extract_unit` (returns on the first element
found, even when its text cleans to the empty string). -/
def extractUnitFrom (soup : Soup) : List String → Option String
  | [] => none
  | sel :: rest =>
    match soup.selectOne sel with
    | some el => some (cleanText el.text)
    | none => extractUnitFrom soup rest

/-- `BunningsScraper._extract_unit`, with its final `return "each"`. -/
def extractUnit (soup : Soup) : String :=
  (extractUnitFrom soup unitSelectors).getD "each"

/-- The scraper's `Product` dataclass (the fields the claims concern). -/
structure Product where
  name : String
  sku : String
  price : ℚ
  url : String
  supplier : String
  category : String
  inStock : Bool
  unit : String
deriving DecidableEq

/-- Python `x or default` on an optional string. -/
def pyOrStr (o : Option String) (d : String) : String :=
  match o with
  | some s => if pyTruthy s then s else d
  | none => d

/-- `BunningsScraper.scrape_product` after a successful fetch: `None`
exactly when no product name is found; otherwise a `Product` with every
missing field defaulted (`sku or "unknown"`, `category or "Uncategorized"`,
`unit or "each"`).  `extract_sku_from_url` yields `None` or a non-empty
digit string, so Python's `if not sku` test is exactly the `none` case. -/
def scrapeProduct (soup : Soup) (productUrl : String) : Option Product :=
  match extractProductName soup with
  | none => none
  | some productName =>
    let price := extractPrice soup
    let sku :=
      match extractSkuFromUrl productUrl with
      | some s => some s
      | none => extractSkuFromPage soup
    some
      { name := productName
        sku := pyOrStr sku "unknown"
        price := price
        url := productUrl
        supplier := "Bunnings"
        category := pyOrStr (extractCategory soup) "Uncategorized"
        inStock := extractStockStatus soup
        unit := pyOrStr (some (extractUnit soup)) "each" }

/-! ## Embedding of `src/db_manager.py`

The SQLAlchemy session over SQLite becomes an explicit `DbState`: one list
per table, in insertion (rowid) order, plus autoincrement counters.
`Float` prices are exact rationals, `DateTime` values are naturals.
Columns no claim concerns (`Supplier.active`, `PriceHistory.additional_info`)
are not modelled. -/

/-- A row of the `suppliers` table. -/
structure SupplierRow where
  id : ℕ
  name : String
  website : Option String
  createdAt : ℕ
deriving DecidableEq

/-- A row of the `products` table (`ProductInfo`). -/
structure ProductRow where
  id : ℕ
  sku : String
  name : Option String
  category : Option String
  unit : Option String
  supplierId : ℕ
  productUrl : Option String
  createdAt : ℕ
  lastUpdated : ℕ
deriving DecidableEq

/-- A row of the `price_history` table (`PriceHistory`). -/
structure PriceRow where
  id : ℕ
  productId : ℕ
  supplierId : ℕ
  price : ℚ
  inStock : Bool
  scrapedAt : ℕ
deriving DecidableEq

/-- The database contents held by a `DatabaseManager` session. -/
structure DbState where
  suppliers : List SupplierRow
  products : List ProductRow
  prices : List PriceRow
  nextSupplierId : ℕ
  nextProductId : ℕ
  nextPriceId : ℕ
deriving DecidableEq

/-- Python truthiness of an optional string (`None` and `""` are falsy). -/
def pyTruthyOpt (o : Option String) : Bool :=
  match o with
  | some s => pyTruthy s
  | none => false

/-- `DatabaseManager.get_or_create_supplier`. -/
def getOrCreateSupplier (st : DbState) (now : ℕ) (name : String)
    (website : Option String) : DbState × SupplierRow :=
  match st.suppliers.find? (fun s => s.name == name) with
  | some s => (st, s)
  | none =>
    let s : SupplierRow := ⟨st.nextSupplierId, name, website, now⟩
    ({ st with suppliers := st.suppliers ++ [s],
               nextSupplierId := st.nextSupplierId + 1 }, s)

/-- `DatabaseManager.get_or_create_product_by_sku`.  Look up by exact
(sku, supplier); create when absent; when present, overwrite name, URL and
category one by one — each only when the observed value is truthy and
differs from the stored one — and advance `last_updated` only when
something changed.  The `unit` argument is used only at creation. -/
def getOrCreateProductBySku (st : DbState) (now : ℕ) (sku : String)
    (supplierId : ℕ) (name category unit productUrl : Option String) :
    DbState × ProductRow :=
  match st.products.find? (fun p => p.sku == sku && p.supplierId == supplierId) with
  | none =>
    let p : ProductRow :=
      ⟨st.nextProductId, sku, name, category, unit, supplierId, productUrl, now, now⟩
    ({ st with products := st.products ++ [p],
               nextProductId := st.nextProductId + 1 }, p)
  | some p =>
    let s1 := if pyTruthyOpt name ∧ p.name ≠ name
      then ({ p with name := name }, true) else (p, false)
    let s2 := if pyTruthyOpt productUrl ∧ s1.1.productUrl ≠ productUrl
      then ({ s1.1 with productUrl := productUrl }, true) else (s1.1, s1.2)
    let s3 := if pyTruthyOpt category ∧ s2.1.category ≠ category
      then ({ s2.1 with category := category }, true) else (s2.1, s2.2)
    if s3.2 then
      let p4 := { s3.1 with lastUpdated := now }
      ({ st with products :=
          st.products.map (fun q => if q.id = p.id then p4 else q) }, p4)
    else (st, s3.1)

/-- `DatabaseManager.save_price`. -/
def savePrice (st : DbState) (now : ℕ) (productId supplierId : ℕ)
    (price : ℚ) (inStock : Bool) : DbState × PriceRow :=
  let r : PriceRow := ⟨st.nextPriceId, productId, supplierId, price, inStock, now⟩
  ({ st with prices := st.prices ++ [r], nextPriceId := st.nextPriceId + 1 }, r)

/-- `DatabaseManager.save_product_from_scraper`: supplier lookup/creation,
SKU-based product resolution, then one appended price row.  None of the
embedded steps can raise, so the `except` branch (rollback, `False`) is
unreachable and the call returns `True`. -/
def saveProductFromScraper (st : DbState) (now : ℕ) (productData : Product) :
    DbState × Bool :=
  let r1 := getOrCreateSupplier st now productData.supplier
    (some "https://www.bunnings.com.au")
  let r2 := getOrCreateProductBySku r1.1 now productData.sku r1.2.id
    (some productData.name) (some productData.category) (some productData.unit)
    (some productData.url)
  let r3 := savePrice r2.1 now r2.2.id r1.2.id productData.price productData.inStock
  (r3.1, true)

/-- One record of the `get_price_changes` result list. -/
structure ChangeRec where
  productId : ℕ
  sku : String
  name : Option String
  previousPrice : ℚ
  currentPrice : ℚ
  changeAmount : ℚ
  changePercent : ℚ
  previousDate : ℕ
  currentDate : ℕ
deriving DecidableEq

/-- The `ORDER BY scraped_at DESC` comparison. -/
def timeDescLe (a b : PriceRow) : Bool := decide (b.scrapedAt ≤ a.scrapedAt)

/-- The `key=abs(change_amount), reverse=True` comparison of the final
`results.sort`. -/
def absDescLe (a b : ChangeRec) : Bool :=
  decide (|b.changeAmount| ≤ |a.changeAmount|)

/-- The dict built for one product inside `get_price_changes`. -/
def changeRecOf (p : ProductRow) (latest previous : PriceRow) : ChangeRec :=
  let changeAmount := latest.price - previous.price
  ⟨p.id, p.sku, p.name, previous.price, latest.price, changeAmount,
   changeAmount / previous.price * 100, previous.scrapedAt, latest.scrapedAt⟩

/-- The per-product body of the `get_price_changes` loop: the product's
in-window price rows, newest first, limited to two; a record when both
exist and the prices differ.  Python divides `change_amount` by
`previous.price` with no guard: a zero previous price raises
`ZeroDivisionError`, modelled as `Except.error ()`. -/
def productChange (st : DbState) (cutoff : ℕ) (p : ProductRow) :
    Except Unit (Option ChangeRec) :=
  let pricesDesc := sortLe timeDescLe
    (st.prices.filter (fun r => r.productId == p.id && decide (cutoff ≤ r.scrapedAt)))
  match pricesDesc.take 2 with
  | [latest, previous] =>
    if latest.price ≠ previous.price then
      if previous.price = 0 then Except.error ()
      else Except.ok (some (changeRecOf p latest previous))
    else Except.ok none
  | _ => Except.ok none

/-- The `for product in products` loop of `get_price_changes`, accumulating
`results`; a raised `ZeroDivisionError` aborts the whole call. -/
def collectChanges (st : DbState) (cutoff : ℕ) :
    List ProductRow → List ChangeRec → Except Unit (List ChangeRec)
  | [], acc => Except.ok acc
  | p :: ps, acc =>
    match productChange st cutoff p with
    | Except.error e => Except.error e
    | Except.ok none => collectChanges st cutoff ps acc
    | Except.ok (some r) => collectChanges st cutoff ps (acc ++ [r])

/-- `DatabaseManager.get_price_changes(days)` called at time `now`. -/
def getPriceChanges (st : DbState) (now days : ℕ) : Except Unit (List ChangeRec) :=
  match collectChanges st (now - days) st.products [] with
  | Except.error e => Except.error e
  | Except.ok results => Except.ok (sortLe absDescLe results)

/-! ## Embedding of `src/url_monitor.py`

The network call `check_url_status` is an external collaborator
(`requests.get`); its classified outcome per URL is an oracle function fed
to the health check. -/

/-- The classified outcome of `check_url_status` for one URL. -/
inductive CheckStatus where
  | active
  | redirect (newUrl : String)
  | notFound
  | error
deriving DecidableEq

/-- `ProductURLMonitor.update_product_url`. -/
def updateProductUrl (st : DbState) (now : ℕ) (productId : ℕ)
    (newUrl : String) : DbState × Bool :=
  match st.products.find? (fun p => p.id == productId) with
  | some _ =>
    ({ st with products := st.products.map (fun p =>
        if p.id = productId then { p with productUrl := some newUrl, lastUpdated := now }
        else p) }, true)
  | none => (st, false)

/-- The fixed marker of `mark_product_discontinued`. -/
def discontinuedMarker : String := "[DISCONTINUED]"

/-- Python `str.startswith`. -/
def strStarts (pat s : String) : Bool := listStarts pat.data s.data

/-- `ProductURLMonitor.mark_product_discontinued`: prefix the name with the
marker unless it already starts with it, and advance `last_updated`
either way.  A `None` name would make `startswith` raise; the method's
`except` catches it and returns `False` after a rollback. -/
def markProductDiscontinued (st : DbState) (now : ℕ) (productId : ℕ) :
    DbState × Bool :=
  match st.products.find? (fun p => p.id == productId) with
  | some p =>
    match p.name with
    | none => (st, false)
    | some n =>
      let newName := if strStarts discontinuedMarker n then n
        else discontinuedMarker ++ " " ++ n
      ({ st with products := st.products.map (fun q =>
          if q.id = productId then { q with name := some newName, lastUpdated := now }
          else q) }, true)
  | none => (st, false)

/-- One entry of the health-check `issues` list (`old_url`/`url` merged
into `url`). -/
structure UrlIssue where
  productId : ℕ
  productName : Option String
  sku : String
  issue : String
  url : Option String
  newUrl : Option String
deriving DecidableEq

/-- The summary dict of `run_url_health_check`. -/
structure HealthReport where
  total : ℕ
  active : ℕ
  redirected : ℕ
  notFound : ℕ
  errors : ℕ
  issues : List UrlIssue
deriving DecidableEq

/-- One iteration of the `run_url_health_check` loop. -/
def healthStep (check : Option String → CheckStatus) (now : ℕ)
    (acc : HealthReport × DbState) (p : ProductRow) : HealthReport × DbState :=
  let r := acc.1
  let s := acc.2
  match check p.productUrl with
  | CheckStatus.active => ({ r with active := r.active + 1 }, s)
  | CheckStatus.redirect newUrl =>
    ({ r with
        redirected := r.redirected + 1,
        issues := r.issues ++ [⟨p.id, p.name, p.sku, "redirect", p.productUrl, some newUrl⟩] },
     (updateProductUrl s now p.id newUrl).1)
  | CheckStatus.notFound =>
    ({ r with
        notFound := r.notFound + 1,
        issues := r.issues ++ [⟨p.id, p.name, p.sku, "not_found", p.productUrl, none⟩] },
     (markProductDiscontinued s now p.id).1)
  | CheckStatus.error =>
    ({ r with
        errors := r.errors + 1,
        issues := r.issues ++ [⟨p.id, p.name, p.sku, "error", p.productUrl, none⟩] }, s)

/-- `ProductURLMonitor.run_url_health_check`: check every stored product
once, tallying outcomes and collecting issues, auto-fixing redirects and
marking 404s discontinued. -/
def runUrlHealthCheck (st : DbState) (check : Option String → CheckStatus)
    (now : ℕ) : HealthReport × DbState :=
  st.products.foldl (healthStep check now)
    ({ total := st.products.length, active := 0, redirected := 0,
       notFound := 0, errors := 0, issues := [] }, st)

/-! ## Embedding of `src/collector.py`

What happens while processing one URL — the scrape, the save, or an
exception escaping either — is summarised per item by an `ItemOutcome`
oracle; `collect_products` itself only classifies and tallies.  The
`try`/`except` at the item boundary is the `raised` case below. -/

/-- The outcome of processing one URL inside `collect_products`. -/
inductive ItemOutcome where
  | scraped (saved : Bool)
  | scrapeFailed
  | raised (msg : String)
deriving DecidableEq

/-- The `stats` dict of `collect_products`. -/
structure RunStats where
  total : ℕ
  successful : ℕ
  failed : ℕ
  errors : List (String × String)
deriving DecidableEq

/-- One iteration of the `collect_products` loop: classify the item into
exactly one outcome and tally it. -/
def collectStep (s : RunStats) : String × ItemOutcome → RunStats
  | (_, ItemOutcome.scraped true) => { s with successful := s.successful + 1 }
  | (url, ItemOutcome.scraped false) =>
    { s with failed := s.failed + 1,
             errors := s.errors ++ [(url, "Database save failed")] }
  | (url, ItemOutcome.scrapeFailed) =>
    { s with failed := s.failed + 1,
             errors := s.errors ++ [(url, "Scraping failed")] }
  | (url, ItemOutcome.raised msg) =>
    { s with failed := s.failed + 1, errors := s.errors ++ [(url, msg)] }

/-- `DataCollector.collect_products` over a URL list with the given
per-item outcomes. -/
def collectProducts (items : List (String × ItemOutcome)) : RunStats :=
  items.foldl collectStep
    { total := items.length, successful := 0, failed := 0, errors := [] }

/-- The (url, error) pair an item contributes, if it fails. -/
def itemError : String × ItemOutcome → Option (String × String)
  | (_, ItemOutcome.scraped true) => none
  | (url, ItemOutcome.scraped false) => some (url, "Database save failed")
  | (url, ItemOutcome.scrapeFailed) => some (url, "Scraping failed")
  | (url, ItemOutcome.raised msg) => some (url, msg)

/-! ## Concrete instances used to exercise the theorems below -/

/-- One supplier, one product, three in-window observations 10 → 12 → 15
(strictly increasing prices at strictly increasing times). -/
def stC1 : DbState :=
  ⟨[⟨1, "Bunnings", none, 0⟩],
   [⟨1, "0340162", some "Plywood", some "Timber", some "each", 1, some "u", 0, 0⟩],
   [⟨1, 1, 1, 10, true, 11⟩, ⟨2, 1, 1, 12, true, 12⟩, ⟨3, 1, 1, 15, true, 13⟩],
   2, 2, 4⟩

/-- One product whose two most recent observations are 0 then 7: the price
moved away from a zero previous price. -/
def stC1zero : DbState :=
  ⟨[⟨1, "Bunnings", none, 0⟩],
   [⟨1, "0340162", some "Plywood", some "Timber", some "each", 1, some "u", 0, 0⟩],
   [⟨1, 1, 1, 0, true, 11⟩, ⟨2, 1, 1, 7, true, 12⟩],
   2, 2, 3⟩

/-- A store holding one identity with one appended observation. -/
def stC2 : DbState :=
  ⟨[⟨1, "Bunnings", none, 0⟩],
   [⟨7, "0340162", some "Plywood", some "Timber", some "each", 1, some "u1", 0, 5⟩],
   [⟨1, 7, 1, 10, true, 6⟩],
   2, 8, 2⟩

/-- A page with a product heading and no breadcrumbs at all. -/
def soupC4none : Soup :=
  { selectOne := fun sel => if sel = "h1" then some ⟨none, "Widget"⟩ else none
    selectAll := fun _ => []
    pageText := ""
    findallPrice := [] }

/-- A page whose breadcrumb trail is just `Home / product`. -/
def soupC4home : Soup :=
  { selectOne := fun _ => none
    selectAll := fun sel =>
      if sel = "[class*=\"breadcrumb\"] a" then [⟨none, "Home"⟩, ⟨none, "Widget"⟩]
      else []
    pageText := ""
    findallPrice := [] }

/-- A page with the typical three-crumb trail `Home / Timber / product`. -/
def soupC4three : Soup :=
  { selectOne := fun sel => if sel = "h1" then some ⟨none, "Widget"⟩ else none
    selectAll := fun sel =>
      if sel = "[class*=\"breadcrumb\"] a" then
        [⟨none, "Home"⟩, ⟨none, "Timber"⟩, ⟨none, "Widget"⟩]
      else []
    pageText := ""
    findallPrice := [] }

/-- A page where only the name extraction succeeds: every other field is
missing and must degrade to its default. -/
def soupC5empty : Soup :=
  { selectOne := fun sel => if sel = "h1" then some ⟨none, "Widget"⟩ else none
    selectAll := fun _ => []
    pageText := ""
    findallPrice := [] }

/-- A page on which no name selector matches anything. -/
def soupC5noname : Soup :=
  { selectOne := fun _ => none
    selectAll := fun _ => []
    pageText := ""
    findallPrice := [] }

/-- A store holding one identity (id 3) named `Plywood` with price history,
for the discontinuation scenario. -/
def stC9 : DbState :=
  ⟨[⟨1, "Bunnings", none, 0⟩],
   [⟨3, "0340162", some "Plywood", some "Timber", some "each", 1, some "u1", 0, 5⟩],
   [⟨1, 3, 1, 10, true, 6⟩],
   2, 4, 2⟩

/-! ## Lemmas about the insertion sort -/

theorem mem_insertLe {le : α → α → Bool} {x a : α} {l : List α} :
    a ∈ insertLe le x l ↔ a = x ∨ a ∈ l := by
  induction l with
  | nil => simp [insertLe]
  | cons y ys ih =>
    by_cases h : le x y = true
    · simp [insertLe, h]
    · simp only [insertLe, if_neg h, List.mem_cons, ih]
      tauto

theorem pairwise_insertLe {le : α → α → Bool}
    (htot : ∀ a b, le a b = true ∨ le b a = true)
    (htrans : ∀ a b c, le a b = true → le b c = true → le a c = true)
    {x : α} {l : List α} (hl : l.Pairwise (fun a b => le a b = true)) :
    (insertLe le x l).Pairwise (fun a b => le a b = true) := by
  induction l with
  | nil => simp [insertLe]
  | cons y ys ih =>
    rcases List.pairwise_cons.mp hl with ⟨hy, hys⟩
    by_cases h : le x y = true
    · rw [insertLe, if_pos h]
      refine List.pairwise_cons.mpr ⟨?_, hl⟩
      intro b hb
      rcases List.mem_cons.mp hb with rfl | hb
      · exact h
      · exact htrans x y b h (hy b hb)
    · rw [insertLe, if_neg h]
      refine List.pairwise_cons.mpr ⟨?_, ih hys⟩
      intro b hb
      rcases mem_insertLe.mp hb with rfl | hb
      · exact (htot b y).resolve_left h
      · exact hy b hb

theorem pairwise_sortLe {le : α → α → Bool}
    (htot : ∀ a b, le a b = true ∨ le b a = true)
    (htrans : ∀ a b c, le a b = true → le b c = true → le a c = true)
    (l : List α) : (sortLe le l).Pairwise (fun a b => le a b = true) := by
  induction l with
  | nil => simp [sortLe]
  | cons x xs ih => exact pairwise_insertLe htot htrans ih

theorem mem_sortLe {le : α → α → Bool} {a : α} {l : List α} :
    a ∈ sortLe le l ↔ a ∈ l := by
  induction l with
  | nil => simp [sortLe]
  | cons x xs ih => simp [sortLe, mem_insertLe, ih]

/-! ## Lemmas about `clean_text` -/

theorem splitWsAux_words :
    ∀ (l acc : List Char), (∀ c ∈ acc, pySpace c = false) →
      ∀ w ∈ splitWsAux l acc, w ≠ [] ∧ ∀ c ∈ w, pySpace c = false := by
  intro l
  induction l with
  | nil =>
    intro acc hacc w hw
    by_cases h : acc.isEmpty
    · simp [splitWsAux, h] at hw
    · simp only [splitWsAux, if_neg h, List.mem_singleton] at hw
      subst hw
      constructor
      · simpa [List.isEmpty_iff] using h
      · intro c hc
        exact hacc c (List.mem_reverse.mp hc)
  | cons c cs ih =>
    intro acc hacc w hw
    by_cases hsp : pySpace c = true
    · by_cases h : acc.isEmpty
      · rw [splitWsAux, if_pos hsp, if_pos h] at hw
        exact ih [] (by simp) w hw
      · rw [splitWsAux, if_pos hsp, if_neg h] at hw
        rcases List.mem_cons.mp hw with rfl | hw
        · constructor
          · simpa [List.isEmpty_iff] using h
          · intro d hd
            exact hacc d (List.mem_reverse.mp hd)
        · exact ih [] (by simp) w hw
    · rw [splitWsAux, if_neg hsp] at hw
      refine ih (c :: acc) ?_ w hw
      intro d hd
      rcases List.mem_cons.mp hd with rfl | hd
      · simpa using hsp
      · exact hacc d hd

theorem splitWs_words (l : List Char) :
    ∀ w ∈ splitWs l, w ≠ [] ∧ ∀ c ∈ w, pySpace c = false :=
  splitWsAux_words l [] (by simp)

theorem splitWsAux_chunk :
    ∀ (w l acc : List Char), (∀ c ∈ w, pySpace c = false) →
      splitWsAux (w ++ l) acc = splitWsAux l (w.reverse ++ acc) := by
  intro w
  induction w with
  | nil => intro l acc _; simp
  | cons c cs ih =>
    intro l acc hw
    have hc : pySpace c = false := hw c (by simp)
    rw [List.cons_append, splitWsAux, if_neg (by simp [hc])]
    rw [ih l (c :: acc) (fun d hd => hw d (by simp [hd]))]
    simp

theorem splitWsAux_chunk_nil (w acc : List Char)
    (hw : ∀ c ∈ w, pySpace c = false) :
    splitWsAux w acc = splitWsAux [] (w.reverse ++ acc) := by
  have h := splitWsAux_chunk w [] acc hw
  simpa using h

theorem splitWs_joinSp :
    ∀ ws : List (List Char),
      (∀ w ∈ ws, w ≠ [] ∧ ∀ c ∈ w, pySpace c = false) →
      splitWs (joinSp ws) = ws := by
  intro ws
  induction ws with
  | nil => intro _; rfl
  | cons w ws ih =>
    intro h
    rcases h w (by simp) with ⟨hne, hch⟩
    have hwrev : ¬(w.reverse ++ ([] : List Char)).isEmpty = true := by
      simp [hne]
    cases ws with
    | nil =>
      show splitWsAux w [] = [w]
      rw [splitWsAux_chunk_nil w [] hch, splitWsAux, if_neg hwrev]
      simp
    | cons w2 ws2 =>
      show splitWsAux (w ++ ' ' :: joinSp (w2 :: ws2)) [] = w :: w2 :: ws2
      rw [splitWsAux_chunk w _ [] hch, splitWsAux, if_pos (by decide), if_neg hwrev]
      simp only [List.append_nil, List.reverse_reverse]
      rw [show splitWsAux (joinSp (w2 :: ws2)) [] = splitWs (joinSp (w2 :: ws2)) from rfl]
      rw [ih (fun v hv => h v (by simp [hv]))]

theorem cleanText_idem (s : String) : cleanText (cleanText s) = cleanText s := by
  by_cases h : s.data.isEmpty
  · rw [show cleanText s = "" from by rw [cleanText, if_pos h]]
    rfl
  · have hs : cleanText s = ⟨joinSp (splitWs s.data)⟩ := by rw [cleanText, if_neg h]
    rw [hs, cleanText]
    by_cases h2 : (String.mk (joinSp (splitWs s.data))).data.isEmpty
    · rw [if_pos h2]
      have h3 : joinSp (splitWs s.data) = [] := by
        simpa [List.isEmpty_iff] using h2
      rw [show (⟨joinSp (splitWs s.data)⟩ : String) = ⟨[]⟩ from by rw [h3]]
    · rw [if_neg h2]
      show (⟨joinSp (splitWs (joinSp (splitWs s.data)))⟩ : String)
          = ⟨joinSp (splitWs s.data)⟩
      rw [splitWs_joinSp (splitWs s.data) (splitWs_words s.data)]

/-! ## Lemmas about digit strings and `floatStr` -/

theorem charVal_digChar {n : ℕ} (h : n < 10) : charVal (digChar n) = n := by
  interval_cases n <;> rfl

theorem isDigit_digChar {n : ℕ} (h : n < 10) : (digChar n).isDigit = true := by
  interval_cases n <;> rfl

theorem foldl_natDigits :
    ∀ (fuel n a : ℕ), n ≤ fuel →
      List.foldl (fun x c => 10 * x + charVal c) a (natDigits fuel n)
        = a * 10 ^ (natDigits fuel n).length + n := by
  intro fuel
  induction fuel with
  | zero =>
    intro n a h
    interval_cases n
    simp [natDigits]
  | succ fuel ih =>
    intro n a h
    by_cases hn : n = 0
    · subst hn; simp [natDigits]
    · rw [natDigits, if_neg hn, List.foldl_append]
      have hdiv : n / 10 ≤ fuel := by
        have h1 : n / 10 < n := Nat.div_lt_self (Nat.pos_of_ne_zero hn) (by norm_num)
        omega
      rw [ih (n / 10) a hdiv]
      simp only [List.foldl_cons, List.foldl_nil]
      rw [charVal_digChar (Nat.mod_lt n (by norm_num))]
      rw [List.length_append, List.length_singleton]
      have hmod := Nat.div_add_mod n 10
      set k := (natDigits fuel (n / 10)).length
      calc 10 * (a * 10 ^ k + n / 10) + n % 10
          = a * (10 ^ k * 10) + (10 * (n / 10) + n % 10) := by ring
        _ = a * 10 ^ (k + 1) + n := by rw [pow_succ, hmod]

theorem digitsVal_natDigits {fuel n : ℕ} (h : n ≤ fuel) :
    digitsVal (natDigits fuel n) = n := by
  have := foldl_natDigits fuel n 0 h
  simpa [digitsVal] using this

theorem digits_natDigits :
    ∀ (fuel n : ℕ), ∀ c ∈ natDigits fuel n, c.isDigit = true := by
  intro fuel
  induction fuel with
  | zero => intro n c hc; simp [natDigits] at hc
  | succ fuel ih =>
    intro n c hc
    by_cases hn : n = 0
    · subst hn; simp [natDigits] at hc
    · rw [natDigits, if_neg hn] at hc
      rcases List.mem_append.mp hc with hc | hc
      · exact ih (n / 10) c hc
      · rw [List.mem_singleton] at hc
        subst hc
        exact isDigit_digChar (Nat.mod_lt n (by norm_num))

theorem digitsVal_natStr (n : ℕ) : digitsVal (natStr n) = n := by
  by_cases hn : n = 0
  · subst hn; rfl
  · rw [natStr, if_neg hn]
    exact digitsVal_natDigits le_rfl

theorem digits_natStr (n : ℕ) : ∀ c ∈ natStr n, c.isDigit = true := by
  by_cases hn : n = 0
  · subst hn; intro c hc; simp [natStr] at hc; subst hc; rfl
  · rw [natStr, if_neg hn]
    exact digits_natDigits n n

theorem natStr_ne_nil (n : ℕ) : natStr n ≠ [] := by
  by_cases hn : n = 0
  · subst hn; simp [natStr]
  · rw [natStr, if_neg hn]
    obtain ⟨m, rfl⟩ : ∃ m, n = m + 1 := ⟨n - 1, by omega⟩
    rw [natDigits, if_neg hn]
    simp

theorem foldl_natDigitsPad :
    ∀ (e n a : ℕ),
      List.foldl (fun x c => 10 * x + charVal c) a (natDigitsPad e n)
        = a * 10 ^ e + n % 10 ^ e := by
  intro e
  induction e with
  | zero => intro n a; simp [natDigitsPad, Nat.mod_one]
  | succ e ih =>
    intro n a
    rw [natDigitsPad, List.foldl_append, ih]
    simp only [List.foldl_cons, List.foldl_nil]
    rw [charVal_digChar (Nat.mod_lt n (by norm_num))]
    have hsplit : n % (10 * 10 ^ e) = n % 10 + 10 * (n / 10 % 10 ^ e) := Nat.mod_mul
    calc 10 * (a * 10 ^ e + n / 10 % 10 ^ e) + n % 10
        = a * (10 * 10 ^ e) + (n % 10 + 10 * (n / 10 % 10 ^ e)) := by ring
      _ = a * 10 ^ (e + 1) + n % 10 ^ (e + 1) := by
          rw [← hsplit, pow_succ]
          ring_nf

theorem digitsVal_natDigitsPad (e n : ℕ) :
    digitsVal (natDigitsPad e n) = n % 10 ^ e := by
  have := foldl_natDigitsPad e n 0
  simpa [digitsVal] using this

theorem digits_natDigitsPad :
    ∀ (e n : ℕ), ∀ c ∈ natDigitsPad e n, c.isDigit = true := by
  intro e
  induction e with
  | zero => intro n c hc; simp [natDigitsPad] at hc
  | succ e ih =>
    intro n c hc
    rw [natDigitsPad] at hc
    rcases List.mem_append.mp hc with hc | hc
    · exact ih (n / 10) c hc
    · rw [List.mem_singleton] at hc
      subst hc
      exact isDigit_digChar (Nat.mod_lt n (by norm_num))

theorem stripTrailingZeros_append_zero (l : List Char) :
    stripTrailingZeros (l ++ ['0']) = stripTrailingZeros l := by
  simp [stripTrailingZeros, List.dropWhile]

theorem stripTrailingZeros_append_ne (l : List Char) {c : Char} (h : c ≠ '0') :
    stripTrailingZeros (l ++ [c]) = l ++ [c] := by
  simp [stripTrailingZeros, List.dropWhile, h]

theorem mem_stripTrailingZeros {l : List Char} {c : Char}
    (h : c ∈ stripTrailingZeros l) : c ∈ l := by
  induction l using List.reverseRecOn with
  | nil => simp [stripTrailingZeros] at h
  | append_singleton xs x ih =>
    by_cases hx : x = '0'
    · subst hx
      rw [stripTrailingZeros_append_zero] at h
      exact List.mem_append.mpr (Or.inl (ih h))
    · rwa [stripTrailingZeros_append_ne xs hx] at h

theorem digitsVal_append_singleton (l : List Char) (c : Char) :
    digitsVal (l ++ [c]) = 10 * digitsVal l + charVal c := by
  simp [digitsVal, List.foldl_append]

theorem stripTrailingZeros_ratio (l : List Char) :
    (digitsVal (stripTrailingZeros l) : ℚ) / 10 ^ (stripTrailingZeros l).length
      = (digitsVal l : ℚ) / 10 ^ l.length := by
  induction l using List.reverseRecOn with
  | nil => rfl
  | append_singleton xs x ih =>
    by_cases hx : x = '0'
    · subst hx
      rw [stripTrailingZeros_append_zero, ih, digitsVal_append_singleton]
      have hc : charVal '0' = 0 := rfl
      rw [hc, List.length_append, List.length_singleton]
      push_cast
      rw [pow_succ]
      have h10 : ((10 : ℚ) ^ xs.length) ≠ 0 := by positivity
      field_simp
      ring
    · rw [stripTrailingZeros_append_ne xs hx]

theorem length_natDigitsPad : ∀ (e n : ℕ), (natDigitsPad e n).length = e := by
  intro e
  induction e with
  | zero => intro n; rfl
  | succ e ih => intro n; simp [natDigitsPad, ih]

theorem splitDot_no_dot_append :
    ∀ (a b : List Char), (∀ c ∈ a, c ≠ '.') →
      splitDot (a ++ '.' :: b) = (a, some b) := by
  intro a
  induction a with
  | nil => intro b _; simp [splitDot]
  | cons c cs ih =>
    intro b ha
    have hc : ¬(c = '.') := ha c (by simp)
    rw [List.cons_append, splitDot, if_neg hc,
      ih b (fun d hd => ha d (by simp [hd]))]

theorem not_dot_of_isDigit {c : Char} (h : c.isDigit = true) : c ≠ '.' := by
  intro e
  subst e
  exact absurd h (by decide)

theorem count_dot_le_one {a b : List Char} (ha : '.' ∉ a) (hb : '.' ∉ b) :
    (a ++ '.' :: b).count '.' ≤ 1 := by
  rw [List.count_append, List.count_cons_self,
    List.count_eq_zero.mpr ha, List.count_eq_zero.mpr hb]

theorem dvd_ten_pow_self {b k : ℕ} (hb : 0 < b) (h : b ∣ 10 ^ k) :
    b ∣ 10 ^ b := by
  have h10 : (10 : ℕ) ^ k = 2 ^ k * 5 ^ k := by
    rw [show (10 : ℕ) = 2 * 5 from rfl, mul_pow]
  rw [h10] at h
  obtain ⟨u, v, hu, hv, huv⟩ := exists_dvd_and_dvd_of_dvd_mul h
  obtain ⟨x, _, rfl⟩ := (Nat.dvd_prime_pow Nat.prime_two).mp hu
  obtain ⟨y, _, rfl⟩ := (Nat.dvd_prime_pow (by norm_num : Nat.Prime 5)).mp hv
  subst huv
  have hx2 : (2 : ℕ) ^ x ≤ 2 ^ x * 5 ^ y :=
    Nat.le_mul_of_pos_right _ (by positivity)
  have hy5 : (5 : ℕ) ^ y ≤ 2 ^ x * 5 ^ y :=
    Nat.le_mul_of_pos_left _ (by positivity)
  have hxx : x < 2 ^ x := Nat.lt_two_pow x
  have hyy : y < 2 ^ y := Nat.lt_two_pow y
  have h2y5 : (2 : ℕ) ^ y ≤ 5 ^ y := Nat.pow_le_pow_left (by norm_num) y
  have hxb : x ≤ 2 ^ x * 5 ^ y := by omega
  have hyb : y ≤ 2 ^ x * 5 ^ y := by omega
  have hfin : (10 : ℕ) ^ (2 ^ x * 5 ^ y)
      = 2 ^ (2 ^ x * 5 ^ y) * 5 ^ (2 ^ x * 5 ^ y) := by
    rw [show (10 : ℕ) = 2 * 5 from rfl, mul_pow]
  rw [hfin]
  exact mul_dvd_mul (pow_dvd_pow 2 hxb) (pow_dvd_pow 5 hyb)

theorem den_mul_pow_eq_one {q : ℚ} {e : ℕ} (h : q.den ∣ 10 ^ e) :
    (q * 10 ^ e).den = 1 := by
  obtain ⟨t, ht⟩ := h
  have hcast : ((10 : ℚ) ^ e) = ((q.den : ℚ)) * (t : ℚ) := by
    have := congrArg (fun m : ℕ => (m : ℚ)) ht
    push_cast at this
    simpa using this
  have hden : ((q.den : ℚ)) ≠ 0 := by
    exact_mod_cast q.den_nz
  have h1 : q * 10 ^ e = ((q.num * t : ℤ) : ℚ) := by
    rw [hcast]
    calc q * ((q.den : ℚ) * (t : ℚ))
        = ((q.num : ℚ) / (q.den : ℚ)) * ((q.den : ℚ) * (t : ℚ)) := by
          rw [Rat.num_div_den]
      _ = ((q.num * t : ℤ) : ℚ) := by
          push_cast
          field_simp
          ring
  rw [h1, Rat.den_intCast]

theorem cleanPrice_shape (s : String) :
    0 ≤ cleanPrice s ∧ ∃ k, (cleanPrice s).den ∣ 10 ^ k := by
  rw [cleanPrice]
  cases hp : pyFloatOfCleaned (cleanPriceChars s.data) with
  | none => exact ⟨le_refl 0, 0, by norm_num⟩
  | some q =>
    rw [pyFloatOfCleaned] at hp
    by_cases hc : (cleanPriceChars s.data).any Char.isDigit = true
        ∧ (cleanPriceChars s.data).count '.' ≤ 1
    · rw [if_pos hc] at hp
      have hq := Option.some.inj hp
      set a := (splitDot (cleanPriceChars s.data)).1 with ha
      set frac := (splitDot (cleanPriceChars s.data)).2.getD [] with hfr
      constructor
      · rw [← hq]; positivity
      · refine ⟨frac.length, ?_⟩
        rw [← hq]
        have h10 : ((10 : ℚ) ^ frac.length) ≠ 0 := by positivity
        have hrepr : (digitsVal a : ℚ) + (digitsVal frac : ℚ) / 10 ^ frac.length
            = Rat.divInt (digitsVal a * 10 ^ frac.length + digitsVal frac : ℤ)
                ((10 : ℤ) ^ frac.length) := by
          rw [Rat.divInt_eq_div]
          push_cast
          field_simp
        rw [hrepr]
        have hdvd := Rat.den_dvd
          (digitsVal a * 10 ^ frac.length + digitsVal frac : ℤ)
          ((10 : ℤ) ^ frac.length)
        have hcast : ((10 : ℤ) ^ frac.length) = ((10 ^ frac.length : ℕ) : ℤ) := by
          push_cast
          rfl
        rw [hcast] at hdvd
        exact_mod_cast hdvd
    · rw [if_neg hc] at hp
      exact absurd hp (by simp)

theorem cleanPrice_mkRender (e n : ℕ) :
    cleanPrice ⟨natStr (n / 10 ^ e) ++ '.' ::
      (if (stripTrailingZeros (natDigitsPad e (n % 10 ^ e))).isEmpty then ['0']
       else stripTrailingZeros (natDigitsPad e (n % 10 ^ e)))⟩
    = (n : ℚ) / 10 ^ e := by
  set I := n / 10 ^ e with hI
  set F := n % 10 ^ e with hF
  set frac := stripTrailingZeros (natDigitsPad e F) with hfracdef
  set ff := (if frac.isEmpty then ['0'] else frac) with hffdef
  have hIdig : ∀ c ∈ natStr I, c.isDigit = true := digits_natStr I
  have hffdig : ∀ c ∈ ff, c.isDigit = true := by
    intro c hc
    rw [hffdef] at hc
    by_cases hemp : frac.isEmpty
    · rw [if_pos hemp, List.mem_singleton] at hc
      subst hc
      rfl
    · rw [if_neg hemp] at hc
      rw [hfracdef] at hc
      exact digits_natDigitsPad e F c (mem_stripTrailingZeros hc)
  have hnodotI : '.' ∉ natStr I := fun hm => not_dot_of_isDigit (hIdig '.' hm) rfl
  have hnodotF : '.' ∉ ff := fun hm => not_dot_of_isDigit (hffdig '.' hm) rfl
  have hany : ((natStr I ++ '.' :: ff).any Char.isDigit) = true := by
    obtain ⟨c, hc⟩ := List.exists_mem_of_ne_nil (natStr I) (natStr_ne_nil I)
    rw [List.any_eq_true]
    exact ⟨c, List.mem_append.mpr (Or.inl hc), hIdig c hc⟩
  have hcount : (natStr I ++ '.' :: ff).count '.' ≤ 1 :=
    count_dot_le_one hnodotI hnodotF
  have hsplit : splitDot (natStr I ++ '.' :: ff) = (natStr I, some ff) :=
    splitDot_no_dot_append _ _ (fun c hc hceq => hnodotI (hceq ▸ hc))
  have hfilter : cleanPriceChars (natStr I ++ '.' :: ff) = natStr I ++ '.' :: ff := by
    apply List.filter_eq_self.mpr
    intro c hc
    rcases List.mem_append.mp hc with hcm | hcm
    · simp [hIdig c hcm]
    · rcases List.mem_cons.mp hcm with rfl | hcm
      · simp
      · simp [hffdig c hcm]
  rw [cleanPrice]
  show (match pyFloatOfCleaned (cleanPriceChars (natStr I ++ '.' :: ff)) with
        | some q => q
        | none => 0) = (n : ℚ) / 10 ^ e
  rw [hfilter, pyFloatOfCleaned, if_pos ⟨hany, hcount⟩]
  simp only [hsplit]
  show (digitsVal (natStr I) : ℚ) + (digitsVal ff : ℚ) / 10 ^ ff.length
      = (n : ℚ) / 10 ^ e
  rw [digitsVal_natStr]
  have h10e : ((10 : ℚ) ^ e) ≠ 0 := by positivity
  have hFlt : F < 10 ^ e := by
    rw [hF]
    exact Nat.mod_lt n (by positivity)
  have hrat := stripTrailingZeros_ratio (natDigitsPad e F)
  rw [digitsVal_natDigitsPad, length_natDigitsPad, Nat.mod_eq_of_lt hFlt,
    ← hfracdef] at hrat
  have hsum : I * 10 ^ e + F = n := by
    rw [hI, hF, mul_comm]
    exact Nat.div_add_mod n (10 ^ e)
  by_cases hemp : frac.isEmpty
  · have hffz : ff = ['0'] := by rw [hffdef, if_pos hemp]
    have hfz : frac = [] := List.isEmpty_iff.mp hemp
    rw [hfz] at hrat
    have h0 : (0 : ℚ) = (F : ℚ) / 10 ^ e := by
      simpa [digitsVal] using hrat
    have hF0 : F = 0 := by
      field_simp at h0
      exact_mod_cast h0.symm
    rw [hffz]
    show (I : ℚ) + (digitsVal ['0'] : ℚ) / 10 ^ (['0'] : List Char).length
        = (n : ℚ) / 10 ^ e
    rw [show digitsVal ['0'] = 0 from rfl]
    rw [hF0] at hsum
    field_simp
    exact_mod_cast congrArg (fun m : ℕ => (m : ℚ)) (by omega : I * 10 ^ e = n)
  · have hffe : ff = frac := by rw [hffdef, if_neg hemp]
    rw [hffe, hrat]
    field_simp
    exact_mod_cast congrArg (fun m : ℕ => (m : ℚ)) hsum

theorem cleanPrice_floatStr {q : ℚ} (hq0 : 0 ≤ q)
    (hk : ∃ k, q.den ∣ 10 ^ k)
    (hrange : q = 0 ∨ ((1 : ℚ) / 10 ^ 4 ≤ q ∧ q < 10 ^ 16)) :
    cleanPrice (floatStr q) = q := by
  obtain ⟨k, hk⟩ := hk
  have hbb : q.den ∣ 10 ^ q.den := dvd_ten_pow_self q.den_pos hk
  have hden1 : (q * 10 ^ q.den).den = 1 := den_mul_pow_eq_one hbb
  have hfs : floatStr q = ⟨natStr ((q * 10 ^ q.den).num.toNat / 10 ^ q.den) ++ '.' ::
      (if (stripTrailingZeros (natDigitsPad q.den
            ((q * 10 ^ q.den).num.toNat % 10 ^ q.den))).isEmpty
       then ['0']
       else stripTrailingZeros (natDigitsPad q.den
            ((q * 10 ^ q.den).num.toNat % 10 ^ q.den)))⟩ := by
    simp only [floatStr]
    rw [if_pos ⟨hden1, hq0⟩, if_pos hrange]
  rw [hfs, cleanPrice_mkRender]
  have hnn : 0 ≤ (q * 10 ^ q.den).num := Rat.num_nonneg.mpr (by positivity)
  have hnum : (((q * 10 ^ q.den).num.toNat : ℕ) : ℚ) = q * 10 ^ q.den := by
    have h1 : (((q * 10 ^ q.den).num.toNat : ℕ) : ℤ) = (q * 10 ^ q.den).num :=
      Int.toNat_of_nonneg hnn
    have h2 : (((q * 10 ^ q.den).num.toNat : ℕ) : ℚ)
        = (((q * 10 ^ q.den).num : ℤ) : ℚ) := by
      exact_mod_cast congrArg (fun z : ℤ => (z : ℚ)) h1
    rw [h2]
    exact Rat.coe_int_num_of_den_eq_one hden1
  rw [hnum]
  have h10 : ((10 : ℚ) ^ q.den) ≠ 0 := by positivity
  field_simp

theorem cleanPrice_idem (s : String)
    (hrange : cleanPrice s = 0
      ∨ ((1 : ℚ) / 10 ^ 4 ≤ cleanPrice s ∧ cleanPrice s < 10 ^ 16)) :
    cleanPrice (floatStr (cleanPrice s)) = cleanPrice s :=
  cleanPrice_floatStr (cleanPrice_shape s).1 (cleanPrice_shape s).2 hrange

/-! ## Helper lemmas for the claims -/

theorem listStarts_append (pat rest : List Char) :
    listStarts pat (pat ++ rest) = true := by
  induction pat with
  | nil => rfl
  | cons a as ih => simp [listStarts, ih]

theorem find?_map_of_pred {α : Type} (f : α → α) (pred : α → Bool) :
    ∀ (l : List α) (p : α), (∀ q, pred (f q) = pred q) →
      l.find? pred = some p → (l.map f).find? pred = some (f p) := by
  intro l
  induction l with
  | nil => intro p _ h; simp [List.find?] at h
  | cons q qs ih =>
    intro p hf h
    by_cases hq : pred q = true
    · rw [List.find?_cons_of_pos _ hq] at h
      injection h with h
      subst h
      rw [List.map_cons, List.find?_cons_of_pos _ (by rw [hf, hq])]
    · rw [List.find?_cons_of_neg _ (by simp [hq])] at h
      rw [List.map_cons, List.find?_cons_of_neg _ (by simp [hf q, hq])]
      exact ih p hf h

theorem find?_map_replace (pred : ProductRow → Bool) (p4 : ProductRow) :
    ∀ (l : List ProductRow) (p : ProductRow), l.find? pred = some p →
      pred p4 = true →
      (l.map (fun q => if q.id = p.id then p4 else q)).find? pred = some p4 := by
  intro l
  induction l with
  | nil => intro p h _; simp [List.find?] at h
  | cons q qs ih =>
    intro p h hp4
    by_cases hq : pred q = true
    · rw [List.find?_cons_of_pos _ hq] at h
      injection h with h
      subst h
      rw [List.map_cons, if_pos rfl, List.find?_cons_of_pos _ hp4]
    · rw [List.find?_cons_of_neg _ (by simp [hq])] at h
      rw [List.map_cons]
      by_cases hid : q.id = p.id
      · rw [if_pos hid, List.find?_cons_of_pos _ hp4]
      · rw [if_neg hid, List.find?_cons_of_neg _ (by simp [hq])]
        exact ih p h hp4

theorem mapreplace_ids (pid : ℕ) (p4 : ProductRow) (hp4 : p4.id = pid) :
    ∀ l : List ProductRow,
      (l.map (fun q => if q.id = pid then p4 else q)).map (fun q => q.id)
        = l.map (fun q => q.id) := by
  intro l
  induction l with
  | nil => rfl
  | cons q qs ih =>
    simp only [List.map_cons, ih]
    by_cases hq : q.id = pid
    · rw [if_pos hq, hp4, hq]
    · rw [if_neg hq]

theorem extractPriceFrom_none (soup : Soup) :
    ∀ sels, (∀ sel ∈ sels, soup.selectOne sel = none) →
      extractPriceFrom soup sels = none := by
  intro sels
  induction sels with
  | nil => intro _; rfl
  | cons sel rest ih =>
    intro h
    rw [extractPriceFrom, h sel (by simp)]
    exact ih (fun s hs => h s (by simp [hs]))

theorem extractUnitFrom_none (soup : Soup) :
    ∀ sels, (∀ sel ∈ sels, soup.selectOne sel = none) →
      extractUnitFrom soup sels = none := by
  intro sels
  induction sels with
  | nil => intro _; rfl
  | cons sel rest ih =>
    intro h
    rw [extractUnitFrom, h sel (by simp)]
    exact ih (fun s hs => h s (by simp [hs]))

theorem scanPriceMatches_zero :
    ∀ ms, (∀ m ∈ ms, ¬(1 / 100 ≤ cleanPrice m ∧ cleanPrice m ≤ 100000)) →
      scanPriceMatches ms = 0 := by
  intro ms
  induction ms with
  | nil => intro _; rfl
  | cons m rest ih =>
    intro h
    rw [scanPriceMatches, if_neg (h m (by simp))]
    exact ih (fun x hx => h x (by simp [hx]))

theorem extractStockStatus_default (soup : Soup)
    (h1 : ∀ t ∈ outOfStockTexts,
        listContains t.data (pyLower soup.pageText).data = false)
    (h2 : ∀ sel ∈ inStockSelectors, soup.selectOne sel = none) :
    extractStockStatus soup = true := by
  have ha : (outOfStockTexts.any
      (fun t => listContains t.data (pyLower soup.pageText).data)) = false := by
    rw [List.any_eq_false]
    intro t ht
    simp [h1 t ht]
  have hb : (inStockSelectors.any
      (fun sel => (soup.selectOne sel).isSome)) = false := by
    rw [List.any_eq_false]
    intro s hs
    simp [h2 s hs]
  simp [extractStockStatus, ha, hb]

theorem absDescLe_total : ∀ a b : ChangeRec,
    absDescLe a b = true ∨ absDescLe b a = true := by
  intro a b
  simp only [absDescLe, decide_eq_true_eq]
  exact le_total _ _

theorem absDescLe_trans : ∀ a b c : ChangeRec, absDescLe a b = true →
    absDescLe b c = true → absDescLe a c = true := by
  intro a b c h1 h2
  simp only [absDescLe, decide_eq_true_eq] at *
  exact le_trans h2 h1

theorem productChange_ok_some {st : DbState} {cutoff : ℕ} {p : ProductRow}
    {r : ChangeRec} (h : productChange st cutoff p = Except.ok (some r)) :
    r.previousPrice ≠ r.currentPrice ∧ r.previousPrice ≠ 0
    ∧ r.changeAmount = r.currentPrice - r.previousPrice
    ∧ r.changePercent = r.changeAmount / r.previousPrice * 100 := by
  rw [productChange] at h
  split at h
  · rename_i latest previous
    split at h
    · rename_i hne
      split at h
      · exact absurd h (by simp)
      · rename_i h0
        injection h with h
        injection h with h
        subst h
        refine ⟨?_, h0, rfl, rfl⟩
        simp only [changeRecOf]
        exact fun e => hne e.symm
    · exact absurd h (by simp)
  · exact absurd h (by simp)

theorem collectChanges_mem {st : DbState} {cutoff : ℕ} :
    ∀ (ps : List ProductRow) (acc rs : List ChangeRec),
      collectChanges st cutoff ps acc = Except.ok rs →
      ∀ r ∈ rs, r ∈ acc ∨ ∃ p, productChange st cutoff p = Except.ok (some r) := by
  intro ps
  induction ps with
  | nil =>
    intro acc rs h r hr
    rw [collectChanges] at h
    injection h with h
    subst h
    exact Or.inl hr
  | cons p ps ih =>
    intro acc rs h r hr
    rw [collectChanges] at h
    split at h
    · exact absurd h (by simp)
    · exact ih acc rs h r hr
    · rename_i r' heq
      rcases ih (acc ++ [r']) rs h r hr with hmem | hex
      · rcases List.mem_append.mp hmem with h1 | h1
        · exact Or.inl h1
        · rw [List.mem_singleton] at h1
          subst h1
          exact Or.inr ⟨p, heq⟩
      · exact Or.inr hex

theorem collect_foldl :
    ∀ (items : List (String × ItemOutcome)) (init : RunStats),
      (items.foldl collectStep init).total = init.total
      ∧ (items.foldl collectStep init).successful
          + (items.foldl collectStep init).failed
          = init.successful + init.failed + items.length
      ∧ (items.foldl collectStep init).errors
          = init.errors ++ items.filterMap itemError
      ∧ (items.foldl collectStep init).failed
          = init.failed + (items.filterMap itemError).length := by
  intro items
  induction items with
  | nil => intro init; simp
  | cons item rest ih =>
    intro init
    obtain ⟨url, o⟩ := item
    cases o with
    | scraped saved =>
      cases saved with
      | true =>
        have h := ih { init with successful := init.successful + 1 }
        rcases h with ⟨h1, h2, h3, h4⟩
        refine ⟨by simpa using h1, ?_, ?_, ?_⟩
        · simp only [List.foldl_cons, collectStep]
          simp only [List.length_cons]
          rw [h2]
          simp
          omega
        · simp only [List.foldl_cons, collectStep, List.filterMap_cons, itemError]
          rw [h3]
        · simp only [List.foldl_cons, collectStep, List.filterMap_cons, itemError]
          rw [h4]
      | false =>
        have h := ih { init with
          failed := init.failed + 1,
          errors := init.errors ++ [(url, "Database save failed")] }
        rcases h with ⟨h1, h2, h3, h4⟩
        refine ⟨by simpa using h1, ?_, ?_, ?_⟩
        · simp only [List.foldl_cons, collectStep]
          simp only [List.length_cons]
          rw [h2]
          simp
          omega
        · simp only [List.foldl_cons, collectStep, List.filterMap_cons, itemError]
          rw [h3]
          simp
        · simp only [List.foldl_cons, collectStep, List.filterMap_cons, itemError]
          rw [h4]
          simp
          omega
    | scrapeFailed =>
      have h := ih { init with
        failed := init.failed + 1,
        errors := init.errors ++ [(url, "Scraping failed")] }
      rcases h with ⟨h1, h2, h3, h4⟩
      refine ⟨by simpa using h1, ?_, ?_, ?_⟩
      · simp only [List.foldl_cons, collectStep]
        simp only [List.length_cons]
        rw [h2]
        simp
        omega
      · simp only [List.foldl_cons, collectStep, List.filterMap_cons, itemError]
        rw [h3]
        simp
      · simp only [List.foldl_cons, collectStep, List.filterMap_cons, itemError]
        rw [h4]
        simp
        omega
    | raised msg =>
      have h := ih { init with
        failed := init.failed + 1,
        errors := init.errors ++ [(url, msg)] }
      rcases h with ⟨h1, h2, h3, h4⟩
      refine ⟨by simpa using h1, ?_, ?_, ?_⟩
      · simp only [List.foldl_cons, collectStep]
        simp only [List.length_cons]
        rw [h2]
        simp
        omega
      · simp only [List.foldl_cons, collectStep, List.filterMap_cons, itemError]
        rw [h3]
        simp
      · simp only [List.foldl_cons, collectStep, List.filterMap_cons, itemError]
        rw [h4]
        simp
        omega

theorem updateProductUrl_prices (s : DbState) (now pid : ℕ) (u : String) :
    (updateProductUrl s now pid u).1.prices = s.prices := by
  rw [updateProductUrl]
  cases s.products.find? (fun p => p.id == pid) <;> rfl

theorem markProductDiscontinued_prices (s : DbState) (now pid : ℕ) :
    (markProductDiscontinued s now pid).1.prices = s.prices := by
  rw [markProductDiscontinued]
  split
  · rename_i p _
    cases p.name <;> rfl
  · rfl

theorem health_foldl (check : Option String → CheckStatus) (now : ℕ) :
    ∀ (ps : List ProductRow) (r0 : HealthReport) (s0 : DbState),
      (ps.foldl (healthStep check now) (r0, s0)).1.total = r0.total
      ∧ (ps.foldl (healthStep check now) (r0, s0)).1.active
          + (ps.foldl (healthStep check now) (r0, s0)).1.redirected
          + (ps.foldl (healthStep check now) (r0, s0)).1.notFound
          + (ps.foldl (healthStep check now) (r0, s0)).1.errors
          = r0.active + r0.redirected + r0.notFound + r0.errors + ps.length
      ∧ (ps.foldl (healthStep check now) (r0, s0)).1.issues.length
          + (ps.foldl (healthStep check now) (r0, s0)).1.active
          = r0.issues.length + r0.active + ps.length
      ∧ (ps.foldl (healthStep check now) (r0, s0)).1.notFound
          = r0.notFound + (ps.filter
              (fun q => decide (check q.productUrl = CheckStatus.notFound))).length
      ∧ (ps.foldl (healthStep check now) (r0, s0)).2.prices = s0.prices := by
  intro ps
  induction ps with
  | nil => intro r0 s0; simp
  | cons p rest ih =>
    intro r0 s0
    rw [List.foldl_cons]
    cases hc : check p.productUrl with
    | active =>
      have h := ih { r0 with active := r0.active + 1 } s0
      rcases h with ⟨h1, h2, h3, h4, h5⟩
      rw [show healthStep check now (r0, s0) p
          = ({ r0 with active := r0.active + 1 }, s0) from by
        simp [healthStep, hc]]
      refine ⟨by simpa using h1, ?_, ?_, ?_, h5⟩
      · rw [h2]; simp; omega
      · rw [h3]; simp; omega
      · rw [h4]; simp [List.filter, hc]
    | redirect newUrl =>
      have h := ih { r0 with
        redirected := r0.redirected + 1,
        issues := r0.issues ++ [⟨p.id, p.name, p.sku, "redirect", p.productUrl, some newUrl⟩] }
        (updateProductUrl s0 now p.id newUrl).1
      rcases h with ⟨h1, h2, h3, h4, h5⟩
      rw [show healthStep check now (r0, s0) p
          = ({ r0 with
                redirected := r0.redirected + 1,
                issues := r0.issues ++ [⟨p.id, p.name, p.sku, "redirect", p.productUrl, some newUrl⟩] },
             (updateProductUrl s0 now p.id newUrl).1) from by
        simp [healthStep, hc]]
      refine ⟨by simpa using h1, ?_, ?_, ?_, ?_⟩
      · rw [h2]; simp; omega
      · rw [h3]; simp; omega
      · rw [h4]; simp [List.filter, hc]
      · rw [h5, updateProductUrl_prices]
    | notFound =>
      have h := ih { r0 with
        notFound := r0.notFound + 1,
        issues := r0.issues ++ [⟨p.id, p.name, p.sku, "not_found", p.productUrl, none⟩] }
        (markProductDiscontinued s0 now p.id).1
      rcases h with ⟨h1, h2, h3, h4, h5⟩
      rw [show healthStep check now (r0, s0) p
          = ({ r0 with
                notFound := r0.notFound + 1,
                issues := r0.issues ++ [⟨p.id, p.name, p.sku, "not_found", p.productUrl, none⟩] },
             (markProductDiscontinued s0 now p.id).1) from by
        simp [healthStep, hc]]
      refine ⟨by simpa using h1, ?_, ?_, ?_, ?_⟩
      · rw [h2]; simp; omega
      · rw [h3]; simp; omega
      · rw [h4]; simp [List.filter, hc]; omega
      · rw [h5, markProductDiscontinued_prices]
    | error =>
      have h := ih { r0 with
        errors := r0.errors + 1,
        issues := r0.issues ++ [⟨p.id, p.name, p.sku, "error", p.productUrl, none⟩] } s0
      rcases h with ⟨h1, h2, h3, h4, h5⟩
      rw [show healthStep check now (r0, s0) p
          = ({ r0 with
                errors := r0.errors + 1,
                issues := r0.issues ++ [⟨p.id, p.name, p.sku, "error", p.productUrl, none⟩] },
             s0) from by
        simp [healthStep, hc]]
      refine ⟨by simpa using h1, ?_, ?_, ?_, h5⟩
      · rw [h2]; simp; omega
      · rw [h3]; simp; omega
      · rw [h4]; simp [List.filter, hc]

theorem find?_append_none {α : Type} (l₁ l₂ : List α) (pred : α → Bool)
    (h : l₁.find? pred = none) : (l₁ ++ l₂).find? pred = l₂.find? pred := by
  induction l₁ with
  | nil => rfl
  | cons q qs ih =>
    by_cases hq : pred q = true
    · rw [List.find?_cons_of_pos _ hq] at h
      exact absurd h (by simp)
    · rw [List.find?_cons_of_neg _ (by simp [hq])] at h
      rw [List.cons_append, List.find?_cons_of_neg _ (by simp [hq])]
      exact ih h

/-- Characterization of `get_or_create_product_by_sku` on an existing row:
each mutable field is overwritten exactly when the observed value is truthy
and differs, `last_updated` advances exactly when something changed, and
nothing at all is written otherwise. -/
theorem getOrCreate_existing (st : DbState) (now : ℕ) (sku : String) (supplierId : ℕ)
    (name category unit productUrl : Option String) (p : ProductRow)
    (hp : st.products.find? (fun q => q.sku == sku && q.supplierId == supplierId) = some p) :
    getOrCreateProductBySku st now sku supplierId name category unit productUrl
      = if (pyTruthyOpt name = true ∧ p.name ≠ name)
          ∨ (pyTruthyOpt productUrl = true ∧ p.productUrl ≠ productUrl)
          ∨ (pyTruthyOpt category = true ∧ p.category ≠ category) then
          ({ st with products := st.products.map (fun q =>
              if q.id = p.id then
                ⟨p.id, p.sku,
                 (if pyTruthyOpt name = true ∧ p.name ≠ name then name else p.name),
                 (if pyTruthyOpt category = true ∧ p.category ≠ category then category
                  else p.category),
                 p.unit, p.supplierId,
                 (if pyTruthyOpt productUrl = true ∧ p.productUrl ≠ productUrl then productUrl
                  else p.productUrl),
                 p.createdAt, now⟩
              else q) },
           ⟨p.id, p.sku,
            (if pyTruthyOpt name = true ∧ p.name ≠ name then name else p.name),
            (if pyTruthyOpt category = true ∧ p.category ≠ category then category
             else p.category),
            p.unit, p.supplierId,
            (if pyTruthyOpt productUrl = true ∧ p.productUrl ≠ productUrl then productUrl
             else p.productUrl),
            p.createdAt, now⟩)
        else (st, p) := by
  simp only [getOrCreateProductBySku, hp]
  by_cases h1 : pyTruthyOpt name = true ∧ p.name ≠ name <;>
  by_cases h2 : pyTruthyOpt productUrl = true ∧ p.productUrl ≠ productUrl <;>
  by_cases h3 : pyTruthyOpt category = true ∧ p.category ≠ category <;>
  simp [h1, h2, h3]

theorem cleanPrice_dollar_45_99 : cleanPrice "$45.99" = 4599 / 100 := by
  have hc : cleanPriceChars "$45.99".data = ['4', '5', '.', '9', '9'] := by decide
  rw [cleanPrice, hc]
  rw [pyFloatOfCleaned, if_pos (by decide :
    (['4', '5', '.', '9', '9'] : List Char).any Char.isDigit = true
      ∧ (['4', '5', '.', '9', '9'] : List Char).count '.' ≤ 1)]
  have hs : splitDot ['4', '5', '.', '9', '9'] = (['4', '5'], some ['9', '9']) := by decide
  simp only [hs]
  show (digitsVal ['4', '5'] : ℚ)
      + (digitsVal ['9', '9'] : ℚ) / 10 ^ (['9', '9'] : List Char).length = 4599 / 100
  rw [show digitsVal ['4', '5'] = 45 from by decide,
    show digitsVal ['9', '9'] = 99 from by decide]
  norm_num

theorem cleanPrice_ten_pow_16 :
    cleanPrice "10000000000000000" = ((10 ^ 16 : ℕ) : ℚ) := by
  have hc : cleanPriceChars "10000000000000000".data
      = "10000000000000000".data := by decide
  rw [cleanPrice, hc]
  rw [pyFloatOfCleaned, if_pos (by decide :
    ("10000000000000000".data.any Char.isDigit) = true
      ∧ "10000000000000000".data.count '.' ≤ 1)]
  have hs : splitDot "10000000000000000".data
      = ("10000000000000000".data, none) := by decide
  simp only [hs]
  show (digitsVal "10000000000000000".data : ℚ)
      + (digitsVal ([] : List Char) : ℚ) / 10 ^ ([] : List Char).length
      = ((10 ^ 16 : ℕ) : ℚ)
  rw [show digitsVal "10000000000000000".data = 10 ^ 16 from by decide,
    show digitsVal ([] : List Char) = 0 from rfl]
  norm_num

theorem floatStr_ten_pow_16 : floatStr ((10 ^ 16 : ℕ) : ℚ) = "1e+16" := by
  have hden : ((10 ^ 16 : ℕ) : ℚ).den = 1 := Rat.den_natCast _
  have hq10 : ((10 ^ 16 : ℕ) : ℚ) * (10 : ℚ) ^ (1 : ℕ) = ((10 ^ 17 : ℕ) : ℚ) := by
    push_cast
    ring
  have hguard : (((10 ^ 17 : ℕ) : ℚ)).den = 1 ∧ (0 : ℚ) ≤ ((10 ^ 16 : ℕ) : ℚ) :=
    ⟨Rat.den_natCast _, by positivity⟩
  have hplain : ¬(((10 ^ 16 : ℕ) : ℚ) = 0
      ∨ ((1 : ℚ) / 10 ^ 4 ≤ ((10 ^ 16 : ℕ) : ℚ)
          ∧ ((10 ^ 16 : ℕ) : ℚ) < 10 ^ 16)) := by
    push_cast
    norm_num
  have hlt1 : ¬(((10 ^ 16 : ℕ) : ℚ) < 1) := by
    push_cast
    norm_num
  have hn : (((10 ^ 17 : ℕ) : ℚ)).num.toNat = 10 ^ 17 := by
    rw [Rat.num_natCast]
    simp
  simp only [floatStr]
  rw [hden, hq10, if_pos hguard, if_neg hplain, hn]
  simp only [if_neg hlt1]
  decide

theorem cleanPrice_str_1e16 : cleanPrice "1e+16" = 116 := by
  have hc : cleanPriceChars "1e+16".data = ['1', '1', '6'] := by decide
  rw [cleanPrice, hc]
  rw [pyFloatOfCleaned, if_pos (by decide :
    ((['1', '1', '6'] : List Char).any Char.isDigit) = true
      ∧ (['1', '1', '6'] : List Char).count '.' ≤ 1)]
  have hs : splitDot ['1', '1', '6'] = (['1', '1', '6'], none) := by decide
  simp only [hs]
  show (digitsVal ['1', '1', '6'] : ℚ)
      + (digitsVal ([] : List Char) : ℚ) / 10 ^ ([] : List Char).length = 116
  rw [show digitsVal ['1', '1', '6'] = 116 from by decide,
    show digitsVal ([] : List Char) = 0 from rfl]
  norm_num

/-! ## The claims -/

/-- C7 (corrected): price cleaning is total (the embedding is a total
function) — `clean_price("$45.99") = 45.99` and an input with no parsable
number yields `0.0` — and `clean_text` (whitespace-run collapse plus trim)
is idempotent on every string; but `clean_price` is idempotent only on
results whose `str()` rendering is a plain decimal numeral (zero, or at
least `1e-4` and below `1e16`): there, cleaning the rendering of an
already-cleaned result leaves it unchanged. -/
theorem C7_cleaning_total_idempotent (s : String)
    (h : pyFloatOfCleaned (cleanPriceChars s.data) = none) :
    cleanPrice s = 0
    ∧ cleanPrice "$45.99" = 4599 / 100
    ∧ (∀ t : String,
        (cleanPrice t = 0
          ∨ ((1 : ℚ) / 10 ^ 4 ≤ cleanPrice t ∧ cleanPrice t < 10 ^ 16)) →
        cleanPrice (floatStr (cleanPrice t)) = cleanPrice t)
    ∧ (∀ t : String, cleanText (cleanText t) = cleanText t) := by
  refine ⟨?_, cleanPrice_dollar_45_99, cleanPrice_idem, cleanText_idem⟩
  rw [cleanPrice, h]

theorem C7_cleaning_total_idempotent_witness :
    cleanPrice "abc" = 0 ∧ cleanPrice "1.2.3" = 0
    ∧ cleanPrice "$45.99" = 4599 / 100
    ∧ cleanPrice (floatStr (cleanPrice "abc")) = cleanPrice "abc"
    ∧ cleanText (cleanText "  a   b  ") = cleanText "  a   b  " :=
  ⟨(C7_cleaning_total_idempotent "abc" (by decide)).1,
   (C7_cleaning_total_idempotent "1.2.3" (by decide)).1,
   (C7_cleaning_total_idempotent "abc" (by decide)).2.1,
   (C7_cleaning_total_idempotent "abc" (by decide)).2.2.1 "abc"
     (Or.inl (C7_cleaning_total_idempotent "abc" (by decide)).1),
   (C7_cleaning_total_idempotent "abc" (by decide)).2.2.2 "  a   b  "⟩

/-- C7 counterexample to the original claim's idempotence: the input
`"10000000000000000"` cleans to the float `1e16`, whose `str()` rendering
is the scientific-notation string `"1e+16"`; re-cleaning strips the `e`
and the `+`, leaving `"116"`, so the second clean returns `116.0`, not
the already-cleaned value. -/
theorem C7_cleaning_total_idempotent_counterexample :
    cleanPrice "10000000000000000" = ((10 ^ 16 : ℕ) : ℚ)
    ∧ floatStr (cleanPrice "10000000000000000") = "1e+16"
    ∧ cleanPrice (floatStr (cleanPrice "10000000000000000")) = 116
    ∧ cleanPrice (floatStr (cleanPrice "10000000000000000"))
      ≠ cleanPrice "10000000000000000" := by
  refine ⟨cleanPrice_ten_pow_16, ?_, ?_, ?_⟩
  · rw [cleanPrice_ten_pow_16]
    exact floatStr_ten_pow_16
  · rw [cleanPrice_ten_pow_16, floatStr_ten_pow_16]
    exact cleanPrice_str_1e16
  · rw [cleanPrice_ten_pow_16, floatStr_ten_pow_16, cleanPrice_str_1e16]
    push_cast
    norm_num

/-- C8 (corrected): the last-granted timestamp is updated on release, and a
turn is delayed to exactly `delay + jitter` seconds after the previous one
only when the caller arrives within `delay` seconds of it; a caller
arriving later is granted immediately (never earlier than `delay` seconds
after the previous turn), without the jitter being added. -/
theorem C8_rate_limit_jitter (delay lastRequestTime currentTime jitter : ℚ)
    (hj : 1 / 2 ≤ jitter ∧ jitter < 3 / 2) :
    (respectRateLimit delay lastRequestTime currentTime jitter).2
        = (respectRateLimit delay lastRequestTime currentTime jitter).1
    ∧ (currentTime - lastRequestTime < delay →
        (respectRateLimit delay lastRequestTime currentTime jitter).1 - lastRequestTime
          = delay + jitter)
    ∧ (delay ≤ currentTime - lastRequestTime →
        (respectRateLimit delay lastRequestTime currentTime jitter).1 = currentTime)
    ∧ delay ≤ (respectRateLimit delay lastRequestTime currentTime jitter).1
        - lastRequestTime := by
  simp only [respectRateLimit]
  by_cases h : currentTime - lastRequestTime < delay
  · rw [if_pos h]
    refine ⟨rfl, fun _ => by show currentTime + (delay - (currentTime - lastRequestTime)
        + jitter) - lastRequestTime = delay + jitter; ring,
      fun hc => absurd h (by linarith), ?_⟩
    show delay ≤ currentTime + (delay - (currentTime - lastRequestTime) + jitter)
        - lastRequestTime
    linarith [hj.1]
  · rw [if_neg h]
    refine ⟨rfl, fun hc => absurd hc h, fun _ => rfl, by linarith [not_lt.mp h]⟩

theorem C8_rate_limit_jitter_witness :
    (respectRateLimit 3 0 1 (1/2)).2 = (respectRateLimit 3 0 1 (1/2)).1
    ∧ ((1 : ℚ) - 0 < 3 → (respectRateLimit 3 0 1 (1/2)).1 - 0 = 3 + 1/2)
    ∧ ((3 : ℚ) ≤ 1 - 0 → (respectRateLimit 3 0 1 (1/2)).1 = 1)
    ∧ (3 : ℚ) ≤ (respectRateLimit 3 0 1 (1/2)).1 - 0 :=
  C8_rate_limit_jitter 3 0 1 (1/2) (by norm_num)

/-- C8 counterexample to the claim as stated: the claim requires every
grant to come at least `delay + jitter` seconds after the previous one,
with `jitter ∈ [0.5, 1.5)`.  With `delay = 3`, previous grant at time 0 and
a call arriving at time 3, the code sleeps not at all and grants at time 3,
i.e. only `3 < 3 + jitter` seconds after the previous grant, whatever the
drawn jitter — here witnessed with `jitter = 1/2`, which lies in the
stated interval. -/
theorem C8_rate_limit_jitter_counterexample :
    (1/2 : ℚ) ≤ 1/2 ∧ (1/2 : ℚ) < 3/2
    ∧ (respectRateLimit 3 0 3 (1/2)).1 = 3
    ∧ (respectRateLimit 3 0 3 (1/2)).1 - 0 < 3 + 1/2 := by
  norm_num [respectRateLimit]

/-- C6: no error raised while processing one item terminates the
collection run — each item is classified into exactly one outcome, every
failed item (including ones whose processing raised) contributes exactly
one (url, error) pair, the failed count matches, and all items of the
input list are accounted for in the tallies. -/
theorem C6_item_isolation (items : List (String × ItemOutcome)) :
    (collectProducts items).total = items.length
    ∧ (collectProducts items).successful + (collectProducts items).failed
        = items.length
    ∧ (collectProducts items).errors = items.filterMap itemError
    ∧ (collectProducts items).errors.length = (collectProducts items).failed := by
  have h := collect_foldl items
    { total := items.length, successful := 0, failed := 0, errors := [] }
  rcases h with ⟨h1, h2, h3, h4⟩
  rw [collectProducts]
  simp at h1 h2 h3 h4
  refine ⟨h1, by omega, h3, ?_⟩
  rw [h3, h4]

/-- C10: after every completed health-check run the report satisfies
`total = active + redirected + not_found + errors` = number of stored
products checked, and every non-active product contributes exactly one
issues entry, so `len(issues) = redirected + not_found + errors`. -/
theorem C10_health_report_invariant (st : DbState)
    (check : Option String → CheckStatus) (now : ℕ) :
    (runUrlHealthCheck st check now).1.total = st.products.length
    ∧ (runUrlHealthCheck st check now).1.total
        = (runUrlHealthCheck st check now).1.active
          + (runUrlHealthCheck st check now).1.redirected
          + (runUrlHealthCheck st check now).1.notFound
          + (runUrlHealthCheck st check now).1.errors
    ∧ (runUrlHealthCheck st check now).1.issues.length
        = (runUrlHealthCheck st check now).1.redirected
          + (runUrlHealthCheck st check now).1.notFound
          + (runUrlHealthCheck st check now).1.errors := by
  have h := health_foldl check now st.products
    { total := st.products.length, active := 0, redirected := 0,
      notFound := 0, errors := 0, issues := [] } st
  rcases h with ⟨h1, h2, h3, h4, h5⟩
  rw [runUrlHealthCheck]
  simp at h1 h2 h3 h4 h5
  exact ⟨h1, by omega, by omega⟩

/-- C2: resolving an existing (supplier, sku) identity with a changed,
non-empty name updates that row's display name and last-mutated timestamp
in place: the returned row keeps the stored id, no identity row is added
or removed (the id column and the autoincrement counter are unchanged),
and the price-history table is untouched, so every previously appended
observation remains linked to the same identity. -/
theorem C2_sku_rename_continuity (st : DbState) (now : ℕ) (sku : String)
    (supplierId : ℕ) (newName : String) (category unit productUrl : Option String)
    (p : ProductRow)
    (hfind : st.products.find?
        (fun q => q.sku == sku && q.supplierId == supplierId) = some p)
    (hne : pyTruthy newName = true) (hdiff : p.name ≠ some newName) :
    (getOrCreateProductBySku st now sku supplierId (some newName) category unit productUrl).2.id = p.id
    ∧ (getOrCreateProductBySku st now sku supplierId (some newName) category unit productUrl).2.name = some newName
    ∧ (getOrCreateProductBySku st now sku supplierId (some newName) category unit productUrl).2.lastUpdated = now
    ∧ (getOrCreateProductBySku st now sku supplierId (some newName) category unit productUrl).1.prices = st.prices
    ∧ (getOrCreateProductBySku st now sku supplierId (some newName) category unit productUrl).1.products.map (fun q => q.id)
        = st.products.map (fun q => q.id)
    ∧ (getOrCreateProductBySku st now sku supplierId (some newName) category unit productUrl).1.nextProductId
        = st.nextProductId := by
  have h1 : pyTruthyOpt (some newName) ∧ p.name ≠ some newName :=
    ⟨by simp [pyTruthyOpt, hne], hdiff⟩
  simp only [getOrCreateProductBySku, hfind]
  rw [if_pos h1]
  split_ifs <;>
    first
      | (refine ⟨rfl, rfl, rfl, rfl, ?_, rfl⟩
         refine mapreplace_ids p.id _ ?_ st.products
         rfl)
      | simp_all

theorem C2_sku_rename_continuity_witness :
    (getOrCreateProductBySku stC2 9 "0340162" 1 (some "Plywood Plus") (some "Timber") (some "each") (some "u1")).2.id = 7
    ∧ (getOrCreateProductBySku stC2 9 "0340162" 1 (some "Plywood Plus") (some "Timber") (some "each") (some "u1")).2.name = some "Plywood Plus"
    ∧ (getOrCreateProductBySku stC2 9 "0340162" 1 (some "Plywood Plus") (some "Timber") (some "each") (some "u1")).2.lastUpdated = 9
    ∧ (getOrCreateProductBySku stC2 9 "0340162" 1 (some "Plywood Plus") (some "Timber") (some "each") (some "u1")).1.prices = stC2.prices
    ∧ (getOrCreateProductBySku stC2 9 "0340162" 1 (some "Plywood Plus") (some "Timber") (some "each") (some "u1")).1.products.map (fun q => q.id)
        = stC2.products.map (fun q => q.id)
    ∧ (getOrCreateProductBySku stC2 9 "0340162" 1 (some "Plywood Plus") (some "Timber") (some "each") (some "u1")).1.nextProductId
        = stC2.nextProductId :=
  C2_sku_rename_continuity stC2 9 "0340162" 1 "Plywood Plus" (some "Timber")
    (some "each") (some "u1")
    ⟨7, "0340162", some "Plywood", some "Timber", some "each", 1, some "u1", 0, 5⟩
    (by decide) (by decide) (by decide)

/-- C3: on an existing identity, a resolve call overwrites each mutable
field (name, URL, category) exactly when the observed value is truthy and
differs from the stored one, leaves sku, unit, supplier and creation time
untouched, and performs no mutation at all (same state, same row, no
last-mutated advance) when nothing differs; consequently a second resolve
call with identical attributes — after any first call, including a
creating one — returns the same identity and leaves the store exactly as
the first call left it. -/
theorem C3_resolve_field_discipline (st : DbState) (now now2 : ℕ) (sku : String)
    (supplierId : ℕ) (name category unit productUrl : Option String) :
    (∀ p, st.products.find?
        (fun q => q.sku == sku && q.supplierId == supplierId) = some p →
      (getOrCreateProductBySku st now sku supplierId name category unit productUrl).2.id = p.id
      ∧ (getOrCreateProductBySku st now sku supplierId name category unit productUrl).2.sku = p.sku
      ∧ (getOrCreateProductBySku st now sku supplierId name category unit productUrl).2.supplierId = p.supplierId
      ∧ (getOrCreateProductBySku st now sku supplierId name category unit productUrl).2.unit = p.unit
      ∧ (getOrCreateProductBySku st now sku supplierId name category unit productUrl).2.createdAt = p.createdAt
      ∧ (getOrCreateProductBySku st now sku supplierId name category unit productUrl).2.name
          = (if pyTruthyOpt name = true ∧ p.name ≠ name then name else p.name)
      ∧ (getOrCreateProductBySku st now sku supplierId name category unit productUrl).2.productUrl
          = (if pyTruthyOpt productUrl = true ∧ p.productUrl ≠ productUrl then productUrl
             else p.productUrl)
      ∧ (getOrCreateProductBySku st now sku supplierId name category unit productUrl).2.category
          = (if pyTruthyOpt category = true ∧ p.category ≠ category then category
             else p.category)
      ∧ (¬(pyTruthyOpt name = true ∧ p.name ≠ name) →
         ¬(pyTruthyOpt productUrl = true ∧ p.productUrl ≠ productUrl) →
         ¬(pyTruthyOpt category = true ∧ p.category ≠ category) →
         getOrCreateProductBySku st now sku supplierId name category unit productUrl
           = (st, p)))
    ∧ getOrCreateProductBySku
        (getOrCreateProductBySku st now sku supplierId name category unit productUrl).1
        now2 sku supplierId name category unit productUrl
      = getOrCreateProductBySku st now sku supplierId name category unit productUrl := by
  constructor
  · intro p hp
    rw [getOrCreate_existing st now sku supplierId name category unit productUrl p hp]
    by_cases hor : (pyTruthyOpt name = true ∧ p.name ≠ name)
        ∨ (pyTruthyOpt productUrl = true ∧ p.productUrl ≠ productUrl)
        ∨ (pyTruthyOpt category = true ∧ p.category ≠ category)
    · rw [if_pos hor]
      exact ⟨rfl, rfl, rfl, rfl, rfl, rfl, rfl, rfl,
        fun hn1 hn2 hn3 => absurd hor (by tauto)⟩
    · rw [if_neg hor]
      simp only [not_or] at hor
      exact ⟨rfl, rfl, rfl, rfl, rfl, by simp [hor.1], by simp [hor.2.1],
        by simp [hor.2.2], fun _ _ _ => rfl⟩
  · cases hp : st.products.find? (fun q => q.sku == sku && q.supplierId == supplierId) with
    | none =>
      have hc1 : getOrCreateProductBySku st now sku supplierId name category unit productUrl
          = ({ st with
                products := st.products ++
                  [⟨st.nextProductId, sku, name, category, unit, supplierId, productUrl, now, now⟩],
                nextProductId := st.nextProductId + 1 },
             ⟨st.nextProductId, sku, name, category, unit, supplierId, productUrl, now, now⟩) := by
        simp only [getOrCreateProductBySku, hp]
      rw [hc1]
      have hfind2 : (st.products ++
            [(⟨st.nextProductId, sku, name, category, unit, supplierId, productUrl, now, now⟩ : ProductRow)]).find?
            (fun q => q.sku == sku && q.supplierId == supplierId)
          = some ⟨st.nextProductId, sku, name, category, unit, supplierId, productUrl, now, now⟩ := by
        rw [find?_append_none _ _ _ hp]
        simp [List.find?]
      rw [getOrCreate_existing _ now2 sku supplierId name category unit productUrl _ hfind2]
      rw [if_neg]
      rintro (⟨_, hne⟩ | ⟨_, hne⟩ | ⟨_, hne⟩) <;> exact hne rfl
    | some p =>
      rw [getOrCreate_existing st now sku supplierId name category unit productUrl p hp]
      by_cases hor : (pyTruthyOpt name = true ∧ p.name ≠ name)
          ∨ (pyTruthyOpt productUrl = true ∧ p.productUrl ≠ productUrl)
          ∨ (pyTruthyOpt category = true ∧ p.category ≠ category)
      · rw [if_pos hor]
        have hpredp : ((p.sku == sku) && (p.supplierId == supplierId)) = true := by
          have h := List.find?_some hp
          simpa using h
        have hfind2 : (st.products.map (fun q =>
              if q.id = p.id then
                ⟨p.id, p.sku,
                 (if pyTruthyOpt name = true ∧ p.name ≠ name then name else p.name),
                 (if pyTruthyOpt category = true ∧ p.category ≠ category then category
                  else p.category),
                 p.unit, p.supplierId,
                 (if pyTruthyOpt productUrl = true ∧ p.productUrl ≠ productUrl then productUrl
                  else p.productUrl),
                 p.createdAt, now⟩
              else q)).find? (fun q => q.sku == sku && q.supplierId == supplierId)
            = some ⟨p.id, p.sku,
                 (if pyTruthyOpt name = true ∧ p.name ≠ name then name else p.name),
                 (if pyTruthyOpt category = true ∧ p.category ≠ category then category
                  else p.category),
                 p.unit, p.supplierId,
                 (if pyTruthyOpt productUrl = true ∧ p.productUrl ≠ productUrl then productUrl
                  else p.productUrl),
                 p.createdAt, now⟩ :=
          find?_map_replace _ _ st.products p hp (by simpa using hpredp)
        rw [getOrCreate_existing _ now2 sku supplierId name category unit productUrl _ hfind2]
        rw [if_neg]
        rintro (⟨ht, hne⟩ | ⟨ht, hne⟩ | ⟨ht, hne⟩)
        · by_cases h1 : pyTruthyOpt name = true ∧ p.name ≠ name
          · simp [h1] at hne
          · simp [h1] at hne
            exact h1 ⟨ht, hne⟩
        · by_cases h2 : pyTruthyOpt productUrl = true ∧ p.productUrl ≠ productUrl
          · simp [h2] at hne
          · simp [h2] at hne
            exact h2 ⟨ht, hne⟩
        · by_cases h3 : pyTruthyOpt category = true ∧ p.category ≠ category
          · simp [h3] at hne
          · simp [h3] at hne
            exact h3 ⟨ht, hne⟩
      · rw [if_neg hor]
        rw [getOrCreate_existing st now2 sku supplierId name category unit productUrl p hp,
          if_neg hor]

theorem C3_resolve_field_discipline_witness :
    (getOrCreateProductBySku stC2 9 "0340162" 1 (some "Plywood") (some "Timber") (some "each") (some "u1")).2.id
        = (⟨7, "0340162", some "Plywood", some "Timber", some "each", 1, some "u1", 0, 5⟩ : ProductRow).id
    ∧ getOrCreateProductBySku
        (getOrCreateProductBySku stC2 9 "0340162" 1 (some "Plywood") (some "Timber") (some "each") (some "u1")).1
        11 "0340162" 1 (some "Plywood") (some "Timber") (some "each") (some "u1")
      = getOrCreateProductBySku stC2 9 "0340162" 1 (some "Plywood") (some "Timber") (some "each") (some "u1") := by
  have h := C3_resolve_field_discipline stC2 9 11 "0340162" 1 (some "Plywood")
    (some "Timber") (some "each") (some "u1")
  exact ⟨(h.1 ⟨7, "0340162", some "Plywood", some "Timber", some "each", 1, some "u1", 0, 5⟩
    (by decide)).1, h.2⟩

/-- C9: marking an identity discontinued is idempotent — a 404 result
prefixes the display name with the fixed `[DISCONTINUED]` marker exactly
once (a second check-and-mark changes only the last-mutated timestamp, not
the name), no price history row is deleted by either mark, and within a
health-check run the `not_found` counter counts exactly one increment per
product whose check classified as 404. -/
theorem C9_discontinue_idempotent (st : DbState) (now1 now2 pid : ℕ)
    (p : ProductRow) (n : String)
    (hfind : st.products.find? (fun q => q.id == pid) = some p)
    (hname : p.name = some n)
    (hmk : strStarts discontinuedMarker n = false) :
    (markProductDiscontinued st now1 pid).2 = true
    ∧ (markProductDiscontinued st now1 pid).1.prices = st.prices
    ∧ (markProductDiscontinued st now1 pid).1.products.find? (fun q => q.id == pid)
        = some { p with name := some (discontinuedMarker ++ " " ++ n), lastUpdated := now1 }
    ∧ (markProductDiscontinued (markProductDiscontinued st now1 pid).1 now2 pid).1.products.find?
        (fun q => q.id == pid)
        = some { p with name := some (discontinuedMarker ++ " " ++ n), lastUpdated := now2 }
    ∧ (markProductDiscontinued (markProductDiscontinued st now1 pid).1 now2 pid).1.prices
        = st.prices
    ∧ (∀ (st' : DbState) (check : Option String → CheckStatus) (now' : ℕ),
        (runUrlHealthCheck st' check now').1.notFound
          = (st'.products.filter
              (fun q => decide (check q.productUrl = CheckStatus.notFound))).length) := by
  have hpid : p.id = pid := by
    have h := List.find?_some hfind
    simpa using h
  have hmarked : strStarts discontinuedMarker (discontinuedMarker ++ " " ++ n) = true := by
    rw [strStarts]
    simp only [String.data_append, List.append_assoc]
    exact listStarts_append _ _
  have hm1 : markProductDiscontinued st now1 pid
      = ({ st with products := st.products.map (fun q =>
            if q.id = pid then
              { q with name := some (discontinuedMarker ++ " " ++ n), lastUpdated := now1 }
            else q) }, true) := by
    simp only [markProductDiscontinued, hfind, hname]
    simp [hmk]
  have hfind1 : (markProductDiscontinued st now1 pid).1.products.find? (fun q => q.id == pid)
      = some { p with name := some (discontinuedMarker ++ " " ++ n), lastUpdated := now1 } := by
    rw [hm1]
    have h := find?_map_of_pred
      (fun q => if q.id = pid then
        { q with name := some (discontinuedMarker ++ " " ++ n), lastUpdated := now1 }
        else q)
      (fun q => q.id == pid) st.products p
      (fun q => by by_cases hq : q.id = pid <;> simp [hq]) hfind
    rw [h]
    simp [hpid]
  set m1 := (markProductDiscontinued st now1 pid).1 with hm1def
  have hm2 : markProductDiscontinued m1 now2 pid
      = ({ m1 with
            products := m1.products.map (fun q =>
              if q.id = pid then
                { q with name := some (discontinuedMarker ++ " " ++ n), lastUpdated := now2 }
              else q) }, true) := by
    simp only [markProductDiscontinued, hfind1]
    simp [hmarked]
  refine ⟨by rw [hm1], by rw [hm1def, markProductDiscontinued_prices], hfind1, ?_, ?_, ?_⟩
  · rw [hm2]
    have h := find?_map_of_pred
      (fun q => if q.id = pid then
        { q with name := some (discontinuedMarker ++ " " ++ n), lastUpdated := now2 }
        else q)
      (fun q => q.id == pid) m1.products
      { p with name := some (discontinuedMarker ++ " " ++ n), lastUpdated := now1 }
      (fun q => by by_cases hq : q.id = pid <;> simp [hq]) hfind1
    rw [h]
    simp [hpid]
  · rw [markProductDiscontinued_prices, hm1def, markProductDiscontinued_prices]
  · intro st' check now'
    have h := health_foldl check now' st'.products
      { total := st'.products.length, active := 0, redirected := 0,
        notFound := 0, errors := 0, issues := [] } st'
    rcases h with ⟨_, _, _, h4, _⟩
    rw [runUrlHealthCheck]
    simpa using h4

theorem C9_discontinue_idempotent_witness :
    (markProductDiscontinued stC9 8 3).2 = true
    ∧ (markProductDiscontinued stC9 8 3).1.prices = stC9.prices
    ∧ (markProductDiscontinued stC9 8 3).1.products.find? (fun q => q.id == 3)
        = some { (⟨3, "0340162", some "Plywood", some "Timber", some "each", 1, some "u1", 0, 5⟩ : ProductRow) with
            name := some (discontinuedMarker ++ " " ++ "Plywood"), lastUpdated := 8 }
    ∧ (markProductDiscontinued (markProductDiscontinued stC9 8 3).1 12 3).1.products.find?
        (fun q => q.id == 3)
        = some { (⟨3, "0340162", some "Plywood", some "Timber", some "each", 1, some "u1", 0, 5⟩ : ProductRow) with
            name := some (discontinuedMarker ++ " " ++ "Plywood"), lastUpdated := 12 }
    ∧ (markProductDiscontinued (markProductDiscontinued stC9 8 3).1 12 3).1.prices
        = stC9.prices
    ∧ (∀ (st' : DbState) (check : Option String → CheckStatus) (now' : ℕ),
        (runUrlHealthCheck st' check now').1.notFound
          = (st'.products.filter
              (fun q => decide (check q.productUrl = CheckStatus.notFound))).length) :=
  C9_discontinue_idempotent stC9 8 12 3
    ⟨3, "0340162", some "Plywood", some "Timber", some "each", 1, some "u1", 0, 5⟩
    "Plywood" (by decide) (by decide) (by decide)

/-- C4 (corrected): category extraction returns the cleaned text of the
second-to-last breadcrumb anchor whenever more than one anchor is present
(in a trail of at least three crumbs this skips the root `Home` crumb and
the leaf; with exactly two crumbs it returns the first of them), and `None`
when at most one anchor is present; extraction never fails, and when it
returns `None` the produced snapshot carries the default category string
"Uncategorized" — not `None`. -/
theorem C4_breadcrumb_category (soup : Soup) (url : String) :
    ((soup.selectAll "[class*=\"breadcrumb\"] a").length ≤ 1 →
      extractCategory soup = none)
    ∧ (∀ (x e : Elem) (l : List Elem),
        (soup.selectAll "[class*=\"breadcrumb\"] a").reverse = x :: e :: l →
        extractCategory soup = some (cleanText e.text))
    ∧ (∀ p, scrapeProduct soup url = some p →
        p.category = pyOrStr (extractCategory soup) "Uncategorized") := by
  refine ⟨?_, ?_, ?_⟩
  · intro hlen
    rw [extractCategory, if_neg (fun hc => absurd hc.2 (by omega))]
  · intro x e l hrev
    have hne : soup.selectAll "[class*=\"breadcrumb\"] a" ≠ [] := by
      intro h0
      rw [h0] at hrev
      simp at hrev
    have hlen : (soup.selectAll "[class*=\"breadcrumb\"] a").length > 1 := by
      have h := congrArg List.length hrev
      simp only [List.length_reverse] at h
      simp [h]
    rw [extractCategory, if_pos ⟨by simp [hne], hlen⟩]
    simp only [hrev]
  · intro p hp
    rw [scrapeProduct] at hp
    cases hn : extractProductName soup with
    | none =>
      rw [hn] at hp
      exact absurd hp (by simp)
    | some nm =>
      rw [hn] at hp
      obtain rfl := Option.some.inj hp
      rfl

theorem C4_breadcrumb_category_witness :
    extractCategory soupC4none = none
    ∧ extractCategory soupC4three = some (cleanText (Elem.text ⟨none, "Timber"⟩))
    ∧ Product.category
        ⟨"Widget", "unknown", 0, "https://x", "Bunnings", "Timber", true, "each"⟩
      = pyOrStr (extractCategory soupC4three) "Uncategorized" :=
  ⟨(C4_breadcrumb_category soupC4none "https://x").1 (by decide),
   (C4_breadcrumb_category soupC4three "https://x").2.1
     ⟨none, "Widget"⟩ ⟨none, "Timber"⟩ [⟨none, "Home"⟩] (by decide),
   (C4_breadcrumb_category soupC4three "https://x").2.2
     ⟨"Widget", "unknown", 0, "https://x", "Bunnings", "Timber", true, "each"⟩
     (by decide)⟩

/-- C4 counterexample to the claim as stated: the claim says a snapshot
scraped from a page with no breadcrumbs has `category = None`, and that the
second-to-last crumb rule skips a root `Home` crumb.  On a breadcrumb-free
page the snapshot's category is in fact the string `"Uncategorized"`
(`scrape_product` applies `category or "Uncategorized"`), and on a
two-crumb trail `Home / product` the extractor returns `"Home"` itself. -/
theorem C4_breadcrumb_category_counterexample :
    (scrapeProduct soupC4none "https://example.com").map Product.category
        = some "Uncategorized"
    ∧ extractCategory soupC4home = some "Home" := by
  constructor <;> decide

/-- C5: extraction of a fetched page fails — `scrape_product` yields no
product — exactly when no product name can be found; with a name present,
every other missing or unparsable field degrades to its documented default
(price 0.0, sku "unknown", unit "each", in-stock True) without failing the
snapshot. -/
theorem C5_name_hard_failure (soup : Soup) (url : String) :
    (scrapeProduct soup url = none ↔ extractProductName soup = none)
    ∧ (∀ p, scrapeProduct soup url = some p →
        p.price = extractPrice soup
        ∧ (extractSkuFromUrl url = none → extractSkuFromPage soup = none →
            p.sku = "unknown")
        ∧ ((∀ sel ∈ priceSelectors, soup.selectOne sel = none) →
           (∀ m ∈ soup.findallPrice,
              ¬(1 / 100 ≤ cleanPrice m ∧ cleanPrice m ≤ 100000)) →
            p.price = 0)
        ∧ ((∀ sel ∈ unitSelectors, soup.selectOne sel = none) → p.unit = "each")
        ∧ ((∀ t ∈ outOfStockTexts,
              listContains t.data (pyLower soup.pageText).data = false) →
           (∀ sel ∈ inStockSelectors, soup.selectOne sel = none) →
            p.inStock = true)) := by
  constructor
  · constructor
    · intro h
      cases hn : extractProductName soup with
      | none => rfl
      | some nm =>
        rw [scrapeProduct, hn] at h
        exact absurd h (by simp)
    · intro h
      rw [scrapeProduct, h]
  · intro p hp
    rw [scrapeProduct] at hp
    cases hn : extractProductName soup with
    | none =>
      rw [hn] at hp
      exact absurd hp (by simp)
    | some nm =>
      rw [hn] at hp
      obtain rfl := Option.some.inj hp
      refine ⟨rfl, ?_, ?_, ?_, ?_⟩
      · intro hu hpage
        show pyOrStr (match extractSkuFromUrl url with
          | some s => some s
          | none => extractSkuFromPage soup) "unknown" = "unknown"
        rw [hu, hpage]
        rfl
      · intro hsel hms
        show extractPrice soup = 0
        rw [extractPrice, extractPriceFrom_none soup priceSelectors hsel]
        exact scanPriceMatches_zero soup.findallPrice hms
      · intro hsel
        show pyOrStr (some (extractUnit soup)) "each" = "each"
        rw [extractUnit, extractUnitFrom_none soup unitSelectors hsel]
        rfl
      · intro h1 h2
        show extractStockStatus soup = true
        exact extractStockStatus_default soup h1 h2

theorem C5_name_hard_failure_witness :
    scrapeProduct soupC5noname "https://x" = none
    ∧ Product.sku
        ⟨"Widget", "unknown", 0, "https://x", "Bunnings", "Uncategorized", true, "each"⟩
      = "unknown"
    ∧ Product.price
        ⟨"Widget", "unknown", 0, "https://x", "Bunnings", "Uncategorized", true, "each"⟩
      = 0
    ∧ Product.unit
        ⟨"Widget", "unknown", 0, "https://x", "Bunnings", "Uncategorized", true, "each"⟩
      = "each"
    ∧ Product.inStock
        ⟨"Widget", "unknown", 0, "https://x", "Bunnings", "Uncategorized", true, "each"⟩
      = true := by
  have h2 := (C5_name_hard_failure soupC5empty "https://x").2
    ⟨"Widget", "unknown", 0, "https://x", "Bunnings", "Uncategorized", true, "each"⟩
    (by decide)
  exact ⟨(C5_name_hard_failure soupC5noname "https://x").1.mpr (by decide),
    h2.2.1 (by decide) (by decide),
    h2.2.2.1 (by decide) (by decide),
    h2.2.2.2.1 (by decide),
    h2.2.2.2.2 (by decide) (by decide)⟩

/-- C1 (corrected): for every identity the changes query considers only
that identity's two most recent in-window observations and emits a record
exactly when both exist and their prices differ — equal prices are never a
change, and the strictly increasing series 10 → 12 → 15 yields exactly the
pair 12 → 15 (delta 3, 25 %); each record carries previous price, current
price, signed delta equal to current − previous, and percentage delta
relative to the previous price, and the result list is ordered by
descending absolute delta.  However, when the previous price is zero and
the prices differ, the record is not skipped: the division raises
`ZeroDivisionError` and the whole query fails. -/
theorem C1_price_changes (st : DbState) (now days : ℕ) (rs : List ChangeRec)
    (h : getPriceChanges st now days = Except.ok rs) :
    (∀ r ∈ rs,
        r.previousPrice ≠ r.currentPrice ∧ r.previousPrice ≠ 0
        ∧ r.changeAmount = r.currentPrice - r.previousPrice
        ∧ r.changePercent = r.changeAmount / r.previousPrice * 100)
    ∧ rs.Pairwise (fun a b => |b.changeAmount| ≤ |a.changeAmount|)
    ∧ getPriceChanges stC1 20 20
        = Except.ok [⟨1, "0340162", some "Plywood", 12, 15, 3, 25, 12, 13⟩]
    ∧ getPriceChanges stC1zero 20 20 = Except.error () := by
  rw [getPriceChanges] at h
  split at h
  · exact absurd h (by simp)
  · rename_i results heq
    injection h with h
    subst h
    refine ⟨?_, ?_, ?_, ?_⟩
    · intro r hr
      have hr' := mem_sortLe.mp hr
      rcases collectChanges_mem st.products [] results heq r hr' with hin | ⟨p, hp⟩
      · simp at hin
      · exact productChange_ok_some hp
    · have hp := pairwise_sortLe absDescLe_total absDescLe_trans results
      refine hp.imp ?_
      intro a b hab
      simpa [absDescLe, decide_eq_true_eq] using hab
    · norm_num [getPriceChanges, collectChanges, productChange, changeRecOf,
        sortLe, insertLe, timeDescLe, absDescLe, stC1, List.filter]
    · norm_num [getPriceChanges, collectChanges, productChange, changeRecOf,
        sortLe, insertLe, timeDescLe, absDescLe, stC1zero, List.filter]

theorem C1_price_changes_witness :
    ((⟨1, "0340162", some "Plywood", 12, 15, 3, 25, 12, 13⟩ : ChangeRec).previousPrice
        ≠ (⟨1, "0340162", some "Plywood", 12, 15, 3, 25, 12, 13⟩ : ChangeRec).currentPrice)
    ∧ ([(⟨1, "0340162", some "Plywood", 12, 15, 3, 25, 12, 13⟩ : ChangeRec)]).Pairwise
        (fun a b => |b.changeAmount| ≤ |a.changeAmount|) := by
  have h := C1_price_changes stC1 20 20
      [⟨1, "0340162", some "Plywood", 12, 15, 3, 25, 12, 13⟩]
      (by norm_num [getPriceChanges, collectChanges, productChange, changeRecOf,
        sortLe, insertLe, timeDescLe, absDescLe, stC1, List.filter])
  exact ⟨(h.1 _ (by simp)).1, h.2.1⟩

/-- C1 counterexample to the claim as stated: the claim requires the
change record to be skipped — not computed, and not failing — when the
previous price is zero, so on a store whose only identity has the two
most recent in-window observations 0 then 7 the query would have to
return an empty `ok` list.  The code instead divides by the zero previous
price and the whole call fails with `ZeroDivisionError`. -/
theorem C1_price_changes_counterexample :
    getPriceChanges stC1zero 20 20 = Except.error ()
    ∧ getPriceChanges stC1zero 20 20 ≠ Except.ok [] := by
  have h : getPriceChanges stC1zero 20 20 = Except.error () := by
    norm_num [getPriceChanges, collectChanges, productChange, changeRecOf,
      sortLe, insertLe, timeDescLe, absDescLe, stC1zero, List.filter]
  exact ⟨h, by simp [h]⟩
